import Mathlib

/-!
# Sensible token script decoder (`satotx.go`)

A shallow embedding of the position-based decoder `DecodeSensibleTxo` and of its
four sub-decoders, with the theorems that settle the decoder's specification.

Conventions of the embedding:

* a script is a `List Byte`; Go's `int` offsets are `Int`;
* an index expression `s[i]` and a slice expression `s[lo:hi]` are fallible: they
  return `none` exactly where Go panics with an out-of-range error, and the
  decoders run in the `Option` monad, so `none` is "the decoder panicked";
* the record `*TxoData` is passed in and returned (state passing): a decoder
  returns `some (ret, txo')`;
* `GetHash160` is an external collaborator and is a parameter `H` of every decoder;
* offsets are exact integers; the one data-dependent sum, `dataLen` of `decodeUnique`,
  is wrapped to Go's 64-bit `int` (`wrapInt`).
-/

namespace SensibleScript

/-! ## Data model -/

abbrev Byte := UInt8

/-- Modelled from the spec: the code-type tags `CodeType_FT`, `CodeType_UNIQUE`,
`CodeType_NFT` are declared outside `satotx.go`; the spec gives them as the enum
{FT, UNIQUE, NFT} of opaque, distinct tag values. -/
inductive CodeType where
  | FT
  | UNIQUE
  | NFT
  deriving DecidableEq, Repr

def CodeType_FT : CodeType := CodeType.FT

def CodeType_UNIQUE : CodeType := CodeType.UNIQUE

def CodeType_NFT : CodeType := CodeType.NFT

/-- Modelled from the spec: the record type `TxoData` is declared outside
`satotx.go`; these are the fields the decoder writes (spec section 3). Go strings
(`Name`, `Symbol`) are byte sequences. -/
structure TxoData where
  CodeType : CodeType
  CodeHash : List Byte
  GenesisId : List Byte
  SensibleId : List Byte
  Name : List Byte
  Symbol : List Byte
  Decimal : Nat
  Amount : Nat
  AddressPkh : List Byte
  TokenIdx : Nat
  MetaTxId : List Byte
  deriving DecidableEq, Repr

/-- Modelled from the spec: the opcode constant `OP_RETURN` is declared outside
`satotx.go`; the spec fixes its value to `0x6a`. -/
def OP_RETURN : Byte := 0x6a

/-- Modelled from the spec: the helper `getVarIntLen` is declared outside
`satotx.go`; spec section 4.6 gives the byte length of the canonical varint
encoding: 1 for `n < 0xfd`, 3 for `n <= 0xffff`, 5 for `n <= 0xffffffff` (and the
glossary's prefix byte plus 8 bytes above that). -/
def getVarIntLen (n : Int) : Int :=
  if n < 0xfd then 1
  else if n ≤ 0xffff then 3
  else if n ≤ 0xffffffff then 5
  else 9

/-! ## Go primitives -/

/-- Go's 64-bit `int`: the two's-complement wrap of an integer result. -/
def wrapInt (x : Int) : Int := (x + 2 ^ 63) % 2 ^ 64 - 2 ^ 63

/-- The index expression `s[i]`: `none` where Go panics (index out of range). -/
def index (s : List Byte) (i : Int) : Option Byte :=
  if 0 ≤ i ∧ i < (s.length : Int) then s.get? i.toNat else none

/-- The slice expression `s[lo:hi]`: `none` where Go panics (bounds out of range).
The upper bound is checked against the length (the capacity of the script is not
modelled; no slice of the decoder goes past the length). -/
def slice (s : List Byte) (lo hi : Int) : Option (List Byte) :=
  if 0 ≤ lo ∧ lo ≤ hi ∧ hi ≤ (s.length : Int) then
    some ((s.drop lo.toNat).take (hi.toNat - lo.toNat))
  else none

/-- The builtin `make([]byte, n)`: `n` zero bytes. -/
def make (n : Int) : List Byte := List.replicate n.toNat 0

/-- The builtin `copy(dst, src)`: the first `min (len dst) (len src)` bytes of `dst`
are replaced by those of `src`; returns the new contents of `dst`. -/
def copy (dst src : List Byte) : List Byte :=
  src.take dst.length ++ dst.drop src.length

/-- `bytes.HasSuffix`. -/
def HasSuffix (s suffix : List Byte) : Bool :=
  decide (suffix.length ≤ s.length) && (s.drop (s.length - suffix.length) == suffix)

/-- `bytes.TrimRight(s, "\x00")` for a one-byte cutset: drop the maximal run of
trailing bytes equal to `c`. -/
def TrimRight (s : List Byte) (c : Byte) : List Byte :=
  (s.reverse.dropWhile (fun b => b == c)).reverse

/-- The little-endian value of a byte string: `b[0] | b[1]<<8 | ...` (the shifted
bytes occupy disjoint bits, so the bitwise or is their sum). -/
def leNat : List Byte → Nat
  | [] => 0
  | b :: bs => b.toNat + 256 * leNat bs

/-- `binary.LittleEndian.Uint64`: panics when fewer than 8 bytes are given. -/
def Uint64 (b : List Byte) : Option Nat :=
  if 8 ≤ b.length then some (leNat (b.take 8)) else none

/-- `binary.LittleEndian.Uint32`: panics when fewer than 4 bytes are given. -/
def Uint32 (b : List Byte) : Option Nat :=
  if 4 ≤ b.length then some (leNat (b.take 4)) else none

/-- The byte string "sensible". -/
def flagSensible : List Byte := [0x73, 0x65, 0x6e, 0x73, 0x69, 0x62, 0x6c, 0x65]

/-- The byte string "oraclesv". -/
def flagOraclesv : List Byte := [0x6f, 0x72, 0x61, 0x63, 0x6c, 0x65, 0x73, 0x76]

/-- The condition `s[i] == a && s[j] == b` with Go's short-circuit evaluation: the
second index is evaluated only when the first comparison holds. -/
def probe2 (s : List Byte) (i : Int) (a : Byte) (j : Int) (b : Byte) : Option Bool :=
  match index s i with
  | none => none
  | some x => if x == a then (index s j).map (fun y => y == b) else some false

/-! ## The decoder -/

def hasSensibleFlag (scriptPk : List Byte) : Bool :=
  HasSuffix scriptPk flagSensible || HasSuffix scriptPk flagOraclesv

/-- The version selected by the probe chain of `decodeFT`:
`(genesisIdLen, sensibleIdLen, dataLen, useTokenIdHash)`, or `none` for the
final `else` ("error ft"). -/
def ftVersion (scriptLen : Int) (scriptPk : List Byte) :
    Option (Option (Int × Int × Int × Bool)) := do
  if (← probe2 scriptPk (scriptLen - 72 - 76 - 1 - 1) 0x4c (scriptLen - 72 - 76 - 1) 148) then
    pure (some (76, 36, 1 + 1 + 1 + 72 + 76, true))
  else if (← probe2 scriptPk (scriptLen - 72 - 36 - 1 - 1) 0x4c (scriptLen - 72 - 36 - 1) 108) then
    pure (some (36, 0, 1 + 1 + 1 + 72 + 36, false))
  else if (← probe2 scriptPk (scriptLen - 72 - 20 - 1 - 1) 0x4c (scriptLen - 72 - 20 - 1) 92) then
    pure (some (20, 0, 1 + 1 + 1 + 72 + 20, false))
  else if (← probe2 scriptPk (scriptLen - 50 - 36 - 1 - 1) 0x4c (scriptLen - 50 - 36 - 1) 86) then
    pure (some (36, 0, 1 + 1 + 1 + 50 + 36, false))
  else if (← probe2 scriptPk (scriptLen - 92 - 20 - 1 - 1) 0x4c (scriptLen - 92 - 20 - 1) 112) then
    pure (some (20, 0, 1 + 1 + 1 + 92 + 20, false))
  else
    pure none

def decodeFT (H : List Byte → List Byte) (scriptLen : Int) (scriptPk : List Byte)
    (txo : TxoData) : Option (Bool × TxoData) := do
  match (← ftVersion scriptLen scriptPk) with
  | none => pure (false, txo)
  | some (genesisIdLen, sensibleIdLen, dataLen, useTokenIdHash) =>
    let protoTypeOffset := scriptLen - 8 - 4
    let sensibleOffset := protoTypeOffset - sensibleIdLen
    let genesisOffset := protoTypeOffset - genesisIdLen
    let amountOffset := genesisOffset - 8
    let addressOffset := amountOffset - 20
    let decimalOffset := addressOffset - 1
    let symbolOffset := decimalOffset - 1 - 10
    let nameOffset := symbolOffset - 20
    let txo := { txo with CodeType := CodeType_FT }
    let txo := { txo with Decimal := (← index scriptPk decimalOffset).toNat }
    let txo := { txo with Symbol := TrimRight (← slice scriptPk symbolOffset (symbolOffset + 10)) 0 }
    let txo := { txo with Name := TrimRight (← slice scriptPk nameOffset (nameOffset + 20)) 0 }
    let txo := { txo with Amount := (← Uint64 (← slice scriptPk amountOffset (amountOffset + 8))) }
    let txo := { txo with AddressPkh := make 20 }
    let txo := { txo with
      AddressPkh := copy txo.AddressPkh (← slice scriptPk addressOffset (addressOffset + 20)) }
    let txo := { txo with CodeHash := H (← slice scriptPk 0 (scriptLen - dataLen)) }
    if useTokenIdHash then
      let txo := { txo with
        GenesisId := H (← slice scriptPk genesisOffset (genesisOffset + genesisIdLen)) }
      let txo := { txo with SensibleId := make sensibleIdLen }
      let txo := { txo with
        SensibleId :=
          copy txo.SensibleId (← slice scriptPk sensibleOffset (sensibleOffset + sensibleIdLen)) }
      pure (true, txo)
    else
      let txo := { txo with GenesisId := make genesisIdLen }
      let txo := { txo with
        GenesisId :=
          copy txo.GenesisId (← slice scriptPk genesisOffset (genesisOffset + genesisIdLen)) }
      let txo := { txo with SensibleId := txo.GenesisId }
      pure (true, txo)

def decodeUnique (H : List Byte → List Byte) (scriptLen : Int) (scriptPk : List Byte)
    (txo : TxoData) : Option (Bool × TxoData) := do
  let genesisIdLen : Int := 36
  let protoTypeOffset := scriptLen - 8 - 4
  let genesisOffset := protoTypeOffset - genesisIdLen
  let customDataSizeOffset := genesisOffset - 1 - 4
  let customDataSize ← Uint32 (← slice scriptPk customDataSizeOffset (customDataSizeOffset + 4))
  let varint := getVarIntLen (customDataSize : Int)
  let dataLen := wrapInt (1 + 1 + varint + (customDataSize : Int) + 17 + genesisIdLen)
  if dataLen ≥ scriptLen then
    pure (false, txo)
  else if (← index scriptPk (scriptLen - dataLen)) != OP_RETURN then
    pure (false, txo)
  else
    let txo := { txo with CodeType := CodeType_UNIQUE }
    let txo := { txo with AddressPkh := make 20 }
    let txo := { txo with CodeHash := H (← slice scriptPk 0 (scriptLen - dataLen)) }
    let txo := { txo with GenesisId := make genesisIdLen }
    let txo := { txo with
      GenesisId :=
        copy txo.GenesisId (← slice scriptPk genesisOffset (genesisOffset + genesisIdLen)) }
    pure (true, txo)

def decodeNFTIssue (H : List Byte → List Byte) (scriptLen : Int) (scriptPk : List Byte)
    (txo : TxoData) : Option (Bool × TxoData) := do
  let txo := { txo with CodeType := CodeType_NFT }
  let genesisIdLen : Int := 40
  let genesisOffset := scriptLen - 37 - 1 - genesisIdLen
  let tokenIdxOffset := scriptLen - 1 - 8
  let addressOffset := tokenIdxOffset - 8 - 20
  let dataLen := 1 + 1 + genesisIdLen + 1 + 37
  let txo := { txo with CodeHash := H (← slice scriptPk 0 (scriptLen - dataLen)) }
  let txo := { txo with GenesisId := make genesisIdLen }
  let txo := { txo with
    GenesisId :=
      copy txo.GenesisId (← slice scriptPk genesisOffset (genesisOffset + genesisIdLen)) }
  let txo := { txo with
    TokenIdx := (← Uint64 (← slice scriptPk tokenIdxOffset (tokenIdxOffset + 8))) }
  let txo := { txo with AddressPkh := make 20 }
  let txo := { txo with
    AddressPkh := copy txo.AddressPkh (← slice scriptPk addressOffset (addressOffset + 20)) }
  pure (true, txo)

def decodeNFTTransfer (H : List Byte → List Byte) (scriptLen : Int) (scriptPk : List Byte)
    (txo : TxoData) : Option (Bool × TxoData) := do
  let txo := { txo with CodeType := CodeType_NFT }
  let genesisIdLen : Int := 40
  let genesisOffset := scriptLen - 61 - 1 - genesisIdLen
  let metaTxIdOffset := scriptLen - 1 - 32
  let tokenIdxOffset := metaTxIdOffset - 8
  let addressOffset := tokenIdxOffset - 20
  let dataLen := 1 + 1 + genesisIdLen + 1 + 61
  let txo := { txo with CodeHash := H (← slice scriptPk 0 (scriptLen - dataLen)) }
  let txo := { txo with GenesisId := make genesisIdLen }
  let txo := { txo with
    GenesisId :=
      copy txo.GenesisId (← slice scriptPk genesisOffset (genesisOffset + genesisIdLen)) }
  let txo := { txo with MetaTxId := make 32 }
  let txo := { txo with
    MetaTxId := copy txo.MetaTxId (← slice scriptPk metaTxIdOffset (metaTxIdOffset + 32)) }
  let txo := { txo with
    TokenIdx := (← Uint64 (← slice scriptPk tokenIdxOffset (tokenIdxOffset + 8))) }
  let txo := { txo with AddressPkh := make 20 }
  let txo := { txo with
    AddressPkh := copy txo.AddressPkh (← slice scriptPk addressOffset (addressOffset + 20)) }
  pure (true, txo)

/-- The condition of the NFT-issue branch of the dispatcher (short-circuit `&&`). -/
def nftIssueCond (scriptLen : Int) (scriptPk : List Byte) : Option Bool := do
  if !(decide ((← index scriptPk (scriptLen - 1)) < 2)) then pure false
  else if (← index scriptPk (scriptLen - 37 - 1)) != 37 then pure false
  else if (← index scriptPk (scriptLen - 37 - 1 - 40 - 1)) != 40 then pure false
  else pure ((← index scriptPk (scriptLen - 37 - 1 - 40 - 1 - 1)) == OP_RETURN)

/-- The condition of the NFT-transfer branch of the dispatcher (short-circuit `&&`). -/
def nftTransferCond (scriptLen : Int) (scriptPk : List Byte) : Option Bool := do
  if (← index scriptPk (scriptLen - 1)) != 1 then pure false
  else if (← index scriptPk (scriptLen - 61 - 1)) != 61 then pure false
  else if (← index scriptPk (scriptLen - 61 - 1 - 40 - 1)) != 40 then pure false
  else pure ((← index scriptPk (scriptLen - 61 - 1 - 40 - 1 - 1)) == OP_RETURN)

def DecodeSensibleTxo (H : List Byte → List Byte) (scriptPk : List Byte) (txo : TxoData) :
    Option (Bool × TxoData) := do
  let scriptLen : Int := scriptPk.length
  if scriptLen < 1024 then
    pure (false, txo)
  else if hasSensibleFlag scriptPk then
    let protoTypeOffset := scriptLen - 8 - 4
    if (← index scriptPk protoTypeOffset) == 1 then
      decodeFT H scriptLen scriptPk txo
    else if (← index scriptPk protoTypeOffset) == 2 then
      decodeUnique H scriptLen scriptPk txo
    else
      pure (false, txo)
  else if (← nftIssueCond scriptLen scriptPk) then
    decodeNFTIssue H scriptLen scriptPk txo
  else if (← nftTransferCond scriptLen scriptPk) then
    decodeNFTTransfer H scriptLen scriptPk txo
  else
    pure (false, txo)

/-! ## Total views of the decoder and vocabulary of the statements -/

/-- The byte `s[i]` where the index is in range (the value of `index`). -/
def idx (s : List Byte) (i : Int) : Byte := s.getD i.toNat 0

/-- The bytes `s[lo:hi]` where the bounds are in range (the value of `slice`). -/
def sub (s : List Byte) (lo hi : Int) : List Byte := (s.drop lo.toNat).take (hi.toNat - lo.toNat)

/-- The probe chain of `decodeFT` over in-range bytes:
`(genesisIdLen, sensibleIdLen, dataLen, useTokenIdHash)` of the first matching version. -/
def ftSel (s : List Byte) : Option (Int × Int × Int × Bool) :=
  let n : Int := s.length
  if idx s (n - 150) = 0x4c ∧ idx s (n - 149) = 148 then some (76, 36, 151, true)
  else if idx s (n - 110) = 0x4c ∧ idx s (n - 109) = 108 then some (36, 0, 111, false)
  else if idx s (n - 94) = 0x4c ∧ idx s (n - 93) = 92 then some (20, 0, 95, false)
  else if idx s (n - 88) = 0x4c ∧ idx s (n - 87) = 86 then some (36, 0, 89, false)
  else if idx s (n - 114) = 0x4c ∧ idx s (n - 113) = 112 then some (20, 0, 115, false)
  else none

/-- The record written by `decodeFT` for genesis width `g`, suffix length `d` and
hashing mode `hash`, over in-range bytes. -/
def ftRecord (H : List Byte → List Byte) (s : List Byte) (txo : TxoData) (g d : Int)
    (hash : Bool) : TxoData :=
  let n : Int := s.length
  { txo with
    CodeType := CodeType_FT
    Decimal := (idx s (n - 12 - g - 29)).toNat
    Symbol := TrimRight (sub s (n - 12 - g - 40) (n - 12 - g - 30)) 0
    Name := TrimRight (sub s (n - 12 - g - 60) (n - 12 - g - 40)) 0
    Amount := leNat (sub s (n - 12 - g - 8) (n - 12 - g))
    AddressPkh := sub s (n - 12 - g - 28) (n - 12 - g - 8)
    CodeHash := H (sub s 0 (n - d))
    GenesisId := if hash then H (sub s (n - 12 - g) (n - 12)) else sub s (n - 12 - g) (n - 12)
    SensibleId := if hash then sub s (n - 48) (n - 12) else sub s (n - 12 - g) (n - 12) }

/-- The `custom_data_size` read by `decodeUnique`, over in-range bytes. -/
def uniqueSize (s : List Byte) : Nat :=
  leNat (sub s ((s.length : Int) - 53) ((s.length : Int) - 49))

/-- The `dataLen` computed by `decodeUnique` (before the 64-bit wrap, which is the
identity on it). -/
def uniqueDataLen (s : List Byte) : Int :=
  1 + 1 + getVarIntLen (uniqueSize s) + (uniqueSize s : Int) + 17 + 36

/-- The record written by `decodeUnique`, over in-range bytes. -/
def uniqueRecord (H : List Byte → List Byte) (s : List Byte) (txo : TxoData) : TxoData :=
  let n : Int := s.length
  { txo with
    CodeType := CodeType_UNIQUE
    AddressPkh := make 20
    CodeHash := H (sub s 0 (n - uniqueDataLen s))
    GenesisId := sub s (n - 48) (n - 12) }

/-- The record written by `decodeNFTIssue`, over in-range bytes. -/
def nftIssueRecord (H : List Byte → List Byte) (s : List Byte) (txo : TxoData) : TxoData :=
  let n : Int := s.length
  { txo with
    CodeType := CodeType_NFT
    CodeHash := H (sub s 0 (n - 80))
    GenesisId := sub s (n - 78) (n - 38)
    TokenIdx := leNat (sub s (n - 9) (n - 1))
    AddressPkh := sub s (n - 37) (n - 17) }

/-- The record written by `decodeNFTTransfer`, over in-range bytes. -/
def nftTransferRecord (H : List Byte → List Byte) (s : List Byte) (txo : TxoData) : TxoData :=
  let n : Int := s.length
  { txo with
    CodeType := CodeType_NFT
    CodeHash := H (sub s 0 (n - 104))
    GenesisId := sub s (n - 102) (n - 62)
    MetaTxId := sub s (n - 33) (n - 1)
    TokenIdx := leNat (sub s (n - 41) (n - 33))
    AddressPkh := sub s (n - 61) (n - 41) }

/-- The NFT-issue marker test of the dispatcher, over in-range bytes. -/
def nftIssueMatch (s : List Byte) : Prop :=
  idx s ((s.length : Int) - 1) < 2 ∧ idx s ((s.length : Int) - 38) = 37 ∧
    idx s ((s.length : Int) - 79) = 40 ∧ idx s ((s.length : Int) - 80) = OP_RETURN

/-- The NFT-transfer marker test of the dispatcher, over in-range bytes. -/
def nftTransferMatch (s : List Byte) : Prop :=
  idx s ((s.length : Int) - 1) = 1 ∧ idx s ((s.length : Int) - 62) = 61 ∧
    idx s ((s.length : Int) - 103) = 40 ∧ idx s ((s.length : Int) - 104) = OP_RETURN

instance (s : List Byte) : Decidable (nftIssueMatch s) := by
  unfold nftIssueMatch; infer_instance

instance (s : List Byte) : Decidable (nftTransferMatch s) := by
  unfold nftTransferMatch; infer_instance

/-- A concrete 20-byte stand-in for `GetHash160`, to instantiate the theorems at
concrete inputs: it records the length of its input. -/
def lengthHash (l : List Byte) : List Byte := List.replicate 20 (UInt8.ofNat l.length)

/-- A concrete initial record, to instantiate the theorems at concrete inputs. -/
def txo0 : TxoData :=
  { CodeType := CodeType.NFT, CodeHash := [], GenesisId := [], SensibleId := [], Name := [],
    Symbol := [], Decimal := 0, Amount := 0, AddressPkh := [], TokenIdx := 0, MetaTxId := [] }

/-- One FT version probe as the decoder evaluates it: `script[len-k] == 0x4c` and
`script[len-k+1] == b`. -/
def ftProbe (s : List Byte) (k : Int) (b : Byte) : Prop :=
  index s ((s.length : Int) - k) = some 0x4c ∧ index s ((s.length : Int) - k + 1) = some b

/-- At least one of the five FT version probes (v5, v4, v3, v2, v1) matches. -/
def ftAnyProbe (s : List Byte) : Prop :=
  ftProbe s 150 148 ∨ ftProbe s 110 108 ∨ ftProbe s 94 92 ∨ ftProbe s 88 86 ∨ ftProbe s 114 112

/-- The script ends with one of the two 8-byte flags. -/
def endsWithFlag (s : List Byte) : Prop := flagSensible <:+ s ∨ flagOraclesv <:+ s

/-- The `dataLen` of `decodeUnique` for custom data size `c`:
`1 + 1 + varint_len(c) + c + 17 + 36`. -/
def uniqueTotal (c : Nat) : Int := 1 + 1 + getVarIntLen (c : Int) + (c : Int) + 17 + 36

/-- The validation of `decodeUnique` passes: with `c` the little-endian u32 at
`script[len-53 .. len-49]` and `D = uniqueTotal c`, `D < len` and
`script[len-D] = OP_RETURN`. -/
def uniqueValid (s : List Byte) : Prop :=
  ∃ c : Nat, (slice s ((s.length : Int) - 53) ((s.length : Int) - 49)).bind Uint32 = some c ∧
    uniqueTotal c < (s.length : Int) ∧
    index s ((s.length : Int) - uniqueTotal c) = some OP_RETURN

/-- The NFT-issue markers: `script[len-1] < 2`, `script[len-38] = 37`,
`script[len-79] = 40`, `script[len-80] = OP_RETURN`. -/
def nftIssueMarkers (s : List Byte) : Prop :=
  (∃ b : Byte, index s ((s.length : Int) - 1) = some b ∧ b < 2) ∧
    index s ((s.length : Int) - 38) = some 37 ∧
    index s ((s.length : Int) - 79) = some 40 ∧
    index s ((s.length : Int) - 80) = some OP_RETURN

/-- The NFT-transfer markers: `script[len-1] = 1`, `script[len-62] = 61`,
`script[len-103] = 40`, `script[len-104] = OP_RETURN`. -/
def nftTransferMarkers (s : List Byte) : Prop :=
  index s ((s.length : Int) - 1) = some 1 ∧
    index s ((s.length : Int) - 62) = some 61 ∧
    index s ((s.length : Int) - 103) = some 40 ∧
    index s ((s.length : Int) - 104) = some OP_RETURN

/-- The `k`-byte little-endian encoding of `m` (the encoders' `LE64`, `LE32`). -/
def leBytes : Nat → Nat → List Byte
  | 0, _ => []
  | k + 1, m => UInt8.ofNat (m % 256) :: leBytes k (m / 256)

/-- The FT wire format with pushdata length byte `l`:
`p ++ [OP_RETURN, 0x4c, l] ++ name ++ symbol ++ [is_genesis, decimal] ++ address ++
LE64(amount) ++ genesis ++ [1, t1, t2, t3] ++ flag`. -/
def ftScript (p : List Byte) (l : Byte) (n sym : List Byte) (g d : Byte) (a : List Byte)
    (m : Nat) (G : List Byte) (t1 t2 t3 : Byte) (f : List Byte) : List Byte :=
  p ++ [0x6a, 0x4c, l] ++ n ++ sym ++ [g, d] ++ a ++ leBytes 8 m ++ G ++ [1, t1, t2, t3] ++ f

/-- A 1024-byte FT v3 script whose type field starts with `0` and whose byte at
`len-13` (the last genesis byte) is `1`. -/
def scriptType0 : List Byte :=
  List.replicate 929 0 ++ [0x6a, 0x4c, 92] ++ List.replicate 20 0 ++ List.replicate 10 0 ++
    [0, 8] ++ List.replicate 20 0x11 ++ [1, 0, 0, 0, 0, 0, 0, 0] ++
    (List.replicate 19 0x22 ++ [1]) ++ [0, 0, 0, 0] ++ flagSensible

/-- The name field "TOKEN", NUL-padded to 20 bytes. -/
def nameTOKEN : List Byte := [0x54, 0x4f, 0x4b, 0x45, 0x4e] ++ List.replicate 15 0

/-- The symbol field "TKN", NUL-padded to 10 bytes. -/
def symbolTKN : List Byte := [0x54, 0x4b, 0x4e] ++ List.replicate 7 0

/-- The FT v3 script of the specification's scenario: 929 zero bytes of code, name
"TOKEN", symbol "TKN", decimal 8, address 20 x 0x11, amount 100000000, genesis
20 x 0x22, type 1, flag "sensible". -/
def sampleFT3 : List Byte :=
  ftScript (List.replicate 929 0) 92 nameTOKEN symbolTKN 0 8 (List.replicate 20 0x11) 100000000
    (List.replicate 20 0x22) 0 0 0 flagSensible

/-- The FT v3 scenario script with the bytes `0x4c, 148` planted in the code part at
offsets `len-150` and `len-149`. -/
def sampleFT3Planted : List Byte :=
  ftScript (List.replicate 874 0 ++ [0x4c, 148] ++ List.replicate 53 0) 92 nameTOKEN symbolTKN 0 8
    (List.replicate 20 0x11) 100000000 (List.replicate 20 0x22) 0 0 0 flagSensible

/-- The NFT-transfer wire format: `p ++ [OP_RETURN, 0x28] ++ genesis ++ [0x3d] ++
address ++ LE64(token_idx) ++ meta_tx_id ++ [0x01]`. -/
def nftTransferScript (p G a : List Byte) (t : Nat) (M : List Byte) : List Byte :=
  p ++ [0x6a, 0x28] ++ G ++ [0x3d] ++ a ++ leBytes 8 t ++ M ++ [0x01]

/-- The NFT-issue layout with two 8-byte fields `x`, `y` between the address and the
flag byte: `p ++ [OP_RETURN, 0x28] ++ genesis ++ [0x25] ++ address ++ x ++ y ++ [0x00]`.
The wire format of spec section 6 is `x = LE64(token_idx)`, `y = unused`. -/
def nftIssueScript (p G a x y : List Byte) : List Byte :=
  p ++ [0x6a, 0x28] ++ G ++ [0x25] ++ a ++ x ++ y ++ [0x00]

/-- A 40-byte genesis id carrying `0x6a, 40` at its offsets 22 and 23. -/
def genesisPlanted : List Byte :=
  List.replicate 22 0x55 ++ [0x6a, 40] ++ List.replicate 16 0x55

/-- An NFT-transfer script whose token index `37 * 2^24` and genesis id
`genesisPlanted` reproduce the NFT-issue markers. -/
def sampleTransferPlanted : List Byte :=
  nftTransferScript (List.replicate 920 0) genesisPlanted (List.replicate 20 0x66) 620756992
    (List.replicate 32 0x77)

/-- The NFT-issue script of the specification's scenario in the field order of spec
section 6: genesis 40 x 0x33, address 20 x 0x44, `LE64(7)`, 8 padding bytes, flag 0. -/
def sampleIssueSection6 : List Byte :=
  nftIssueScript (List.replicate 944 0) (List.replicate 40 0x33) (List.replicate 20 0x44)
    (leBytes 8 7) (List.replicate 8 0)

/-- The Unique layout with a region `R` between the custom data and the genesis id:
`p ++ [OP_RETURN, op] ++ V ++ C ++ R ++ genesis ++ [2, t1, t2, t3] ++ flag`, where `V`
stands for the varint of the custom data size and `C` for the custom data. The wire
format of spec section 6 takes a 17-byte `R`. -/
def uniqueScript (p : List Byte) (op : Byte) (V C R G : List Byte) (t1 t2 t3 : Byte)
    (f : List Byte) : List Byte :=
  p ++ [0x6a, op] ++ V ++ C ++ R ++ G ++ [2, t1, t2, t3] ++ f

/-- The Unique scenario of the specification in the layout of spec section 6: flag
"oraclesv", custom data size 0, a one-byte varint, a 17-byte reserved region whose
bytes 12..16 are `LE32(0)`, genesis id 36 x 0x99. -/
def sampleUniqueSection6 : List Byte :=
  uniqueScript (List.replicate 956 0) 0 [0] [] (List.replicate 12 0 ++ leBytes 4 0 ++ [0])
    (List.replicate 36 0x99) 0 0 0 flagOraclesv

/-- An FT v2 script: 935 zero bytes of code, `OP_RETURN, 0x4c, 86`, 9 filler bytes `0x41`,
decimal 8, address 20 x 0x11, amount 100, genesis id 36 x 0x22, type 1, flag "sensible". -/
def sampleFT2 : List Byte :=
  List.replicate 935 0 ++ [0x6a, 0x4c, 86] ++ List.replicate 9 0x41 ++ [8] ++
    List.replicate 20 0x11 ++ leBytes 8 100 ++ List.replicate 36 0x22 ++ [1, 0, 0, 0] ++
    flagSensible

/-- A concrete initial record with every field set, to observe which fields a decode
leaves unchanged. -/
def txoFilled : TxoData :=
  { CodeType := CodeType.UNIQUE, CodeHash := [1], GenesisId := [2], SensibleId := [3],
    Name := [4], Symbol := [5], Decimal := 6, Amount := 7, AddressPkh := [8], TokenIdx := 9,
    MetaTxId := [10] }

/-- The record with `code_hash` blanked: two records agree on every field other than
`code_hash` when their images are equal. -/
def eraseCodeHash (t : TxoData) : TxoData := { t with CodeHash := [] }

/-- A 1024-byte script with flag "sensible", type byte 2 and custom data size 200, so
that the Unique validation reads the byte at offset `len-256`; that byte is `b`. -/
def uniqueFar (b : Byte) : List Byte :=
  List.replicate 768 0 ++ [b] ++ List.replicate 202 0 ++ [200, 0, 0, 0] ++ [0] ++
    List.replicate 36 0x99 ++ [2, 0, 0, 0] ++ flagSensible

/-- The script `uniqueFar 0x6a` with its first byte changed to 7 (outside the last 168
bytes and away from the byte the Unique validation reads). -/
def uniqueFarAlt : List Byte :=
  [7] ++ List.replicate 767 0 ++ [0x6a] ++ List.replicate 202 0 ++ [200, 0, 0, 0] ++ [0] ++
    List.replicate 36 0x99 ++ [2, 0, 0, 0] ++ flagSensible

/-! ## Lemmas -/

theorem index_eq_some (s : List Byte) (i : Int) (h0 : 0 ≤ i) (h1 : i < (s.length : Int)) :
    index s i = some (idx s i) := by
  have h2 : i.toNat < s.length := by omega
  simp [index, idx, h0, h1, List.getD_eq_getElem?_getD, List.getElem?_eq_getElem h2]

theorem slice_eq_some (s : List Byte) (lo hi : Int) (h0 : 0 ≤ lo) (h1 : lo ≤ hi)
    (h2 : hi ≤ (s.length : Int)) : slice s lo hi = some (sub s lo hi) := by
  simp [slice, sub, h0, h1, h2]

theorem length_sub (s : List Byte) (lo hi : Int) (h0 : 0 ≤ lo) (h1 : lo ≤ hi)
    (h2 : hi ≤ (s.length : Int)) : (sub s lo hi).length = (hi - lo).toNat := by
  simp only [sub, List.length_take, List.length_drop]
  omega

theorem Uint64_sub (s : List Byte) (lo hi : Int) (h0 : 0 ≤ lo) (h1 : hi = lo + 8)
    (h2 : hi ≤ (s.length : Int)) : Uint64 (sub s lo hi) = some (leNat (sub s lo hi)) := by
  have hl : (sub s lo hi).length = 8 := by
    rw [length_sub s lo hi h0 (by omega) h2]; omega
  have ht : List.take 8 (sub s lo hi) = sub s lo hi := by
    rw [← hl]; exact List.take_length _
  simp [Uint64, hl, ht]

theorem Uint32_sub (s : List Byte) (lo hi : Int) (h0 : 0 ≤ lo) (h1 : hi = lo + 4)
    (h2 : hi ≤ (s.length : Int)) : Uint32 (sub s lo hi) = some (leNat (sub s lo hi)) := by
  have hl : (sub s lo hi).length = 4 := by
    rw [length_sub s lo hi h0 (by omega) h2]; omega
  have ht : List.take 4 (sub s lo hi) = sub s lo hi := by
    rw [← hl]; exact List.take_length _
  simp [Uint32, hl, ht]

theorem copy_make_sub (s : List Byte) (n lo hi : Int) (h0 : 0 ≤ lo) (h1 : hi = lo + n)
    (hn : 0 ≤ n) (h2 : hi ≤ (s.length : Int)) : copy (make n) (sub s lo hi) = sub s lo hi := by
  have hl : (sub s lo hi).length = n.toNat := by
    rw [length_sub s lo hi h0 (by omega) h2]; congr 1; omega
  simp only [copy, make, List.length_replicate, hl, List.drop_replicate, Nat.sub_self,
    List.replicate_zero, List.append_nil]
  rw [← hl]; exact List.take_length _

theorem leNat_lt (b : List Byte) : leNat b < 256 ^ b.length := by
  induction b with
  | nil => simp [leNat]
  | cons x xs ih =>
    have hx : x.toNat < 256 := UInt8.toNat_lt_size x
    simp only [leNat, List.length_cons, pow_succ]
    omega

theorem wrapInt_eq (x : Int) (h0 : -(2 ^ 63) ≤ x) (h1 : x < 2 ^ 63) : wrapInt x = x := by
  unfold wrapInt
  omega

theorem probe2_eq (s : List Byte) (i j : Int) (a b : Byte) (hi0 : 0 ≤ i)
    (hi1 : i < (s.length : Int)) (hj0 : 0 ≤ j) (hj1 : j < (s.length : Int)) :
    probe2 s i a j b = some (decide (idx s i = a ∧ idx s j = b)) := by
  simp only [probe2, index_eq_some s i hi0 hi1, index_eq_some s j hj0 hj1]
  by_cases h : idx s i = a <;> by_cases h2 : idx s j = b <;> simp [h, h2]

theorem ftVersion_eq (s : List Byte) (h : 1024 ≤ s.length) :
    ftVersion s.length s = some (ftSel s) := by
  simp (disch := omega) only [ftVersion, probe2_eq, ftSel, bind, Option.bind, pure]
  simp only [sub_sub, decide_eq_true_eq]
  norm_num
  split_ifs <;> rfl

theorem ftSel_cases (s : List Byte) :
    ftSel s = none ∨ ftSel s = some (76, 36, 151, true) ∨ ftSel s = some (36, 0, 111, false) ∨
      ftSel s = some (20, 0, 95, false) ∨ ftSel s = some (36, 0, 89, false) ∨
      ftSel s = some (20, 0, 115, false) := by
  simp only [ftSel]
  split_ifs <;> simp

theorem decodeFT_eq (H : List Byte → List Byte) (s : List Byte) (txo : TxoData)
    (h : 1024 ≤ s.length) :
    decodeFT H s.length s txo =
      some (match ftSel s with
        | none => (false, txo)
        | some (g, _, d, hash) => (true, ftRecord H s txo g d hash)) := by
  unfold decodeFT
  rw [ftVersion_eq s h]
  rcases ftSel_cases s with e | e | e | e | e | e <;> rw [e]
  · rfl
  all_goals
    simp (disch := omega) only [index_eq_some, slice_eq_some, Uint64_sub, bind, Option.bind, pure]
    simp (disch := omega) only [copy_make_sub, ite_true, ftRecord, Bool.false_eq_true, ite_false]
    ring_nf

theorem uniqueSize_lt (s : List Byte) (h : 1024 ≤ s.length) : uniqueSize s < 2 ^ 32 := by
  have h1 := leNat_lt (sub s ((s.length : Int) - 53) ((s.length : Int) - 49))
  rw [length_sub s _ _ (by omega) (by omega) (by omega)] at h1
  have e : ((s.length : Int) - 49 - ((s.length : Int) - 53)).toNat = 4 := by omega
  rw [e] at h1
  exact h1

theorem getVarIntLen_bounds (n : Int) : 1 ≤ getVarIntLen n ∧ getVarIntLen n ≤ 9 := by
  unfold getVarIntLen
  split_ifs <;> omega

theorem uniqueDataLen_bounds (s : List Byte) (h : 1024 ≤ s.length) :
    56 ≤ uniqueDataLen s ∧ uniqueDataLen s < 2 ^ 33 := by
  have h1 := uniqueSize_lt s h
  have h2 := getVarIntLen_bounds (uniqueSize s)
  unfold uniqueDataLen
  omega

theorem decodeUnique_eq (H : List Byte → List Byte) (s : List Byte) (txo : TxoData)
    (h : 1024 ≤ s.length) :
    decodeUnique H s.length s txo =
      some (if uniqueDataLen s ≥ s.length ∨ idx s (s.length - uniqueDataLen s) ≠ OP_RETURN then
        (false, txo) else (true, uniqueRecord H s txo)) := by
  have hb := uniqueDataLen_bounds s h
  have hw : wrapInt (uniqueDataLen s) = uniqueDataLen s :=
    wrapInt_eq _ (by omega) (by omega)
  have e1 : (s.length : Int) - 8 - 4 - 36 - 1 - 4 = s.length - 53 := by omega
  have e2 : (s.length : Int) - 8 - 4 - 36 - 1 - 4 + 4 = s.length - 49 := by omega
  have e3 : (s.length : Int) - 8 - 4 - 36 = s.length - 48 := by omega
  have e4 : (s.length : Int) - 48 + 36 = s.length - 12 := by omega
  have s1 := slice_eq_some s ((s.length : Int) - 53) ((s.length : Int) - 49) (by omega) (by omega) (by omega)
  have s2 := Uint32_sub s ((s.length : Int) - 53) ((s.length : Int) - 49) (by omega) (by omega) (by omega)
  have e5 : (s.length : Int) - 53 + 4 = s.length - 49 := by omega
  unfold decodeUnique
  simp only []
  rw [e1, e5, s1]
  rw [Option.bind_eq_bind, Option.some_bind, s2, Option.bind_eq_bind, Option.some_bind]
  have hD : (1 + 1 + getVarIntLen (leNat (sub s ((s.length : Int) - 53) ((s.length : Int) - 49)) : Nat)
      + ((leNat (sub s ((s.length : Int) - 53) ((s.length : Int) - 49)) : Nat) : Int) + 17 + 36)
      = uniqueDataLen s := rfl
  rw [hD, hw, e3, e4]
  by_cases hd : uniqueDataLen s ≥ s.length
  · rw [if_pos hd, if_pos (Or.inl hd)]; rfl
  · rw [if_neg hd, index_eq_some s _ (by omega) (by omega), Option.bind_eq_bind, Option.some_bind,
      slice_eq_some s 0 _ (by omega) (by omega) (by omega),
      slice_eq_some s _ _ (by omega) (by omega) (by omega), Option.some_bind, Option.some_bind,
      copy_make_sub s 36 _ _ (by omega) (by omega) (by omega) (by omega)]
    by_cases hr : idx s (s.length - uniqueDataLen s) = OP_RETURN
    · have hn : ¬ (uniqueDataLen s ≥ s.length ∨ idx s (s.length - uniqueDataLen s) ≠ OP_RETURN) := by
        rintro (h1 | h1)
        · exact hd h1
        · exact h1 hr
      rw [if_neg hn, hr]
      rfl
    · have hne : (idx s (s.length - uniqueDataLen s) != OP_RETURN) = true := by
        simpa using hr
      rw [if_pos (Or.inr hr), if_pos hne]
      rfl

theorem decodeNFTIssue_eq (H : List Byte → List Byte) (s : List Byte) (txo : TxoData)
    (h : 1024 ≤ s.length) :
    decodeNFTIssue H s.length s txo = some (true, nftIssueRecord H s txo) := by
  unfold decodeNFTIssue
  simp (disch := omega) only [slice_eq_some, Uint64_sub, bind, Option.bind, pure]
  simp (disch := omega) only [copy_make_sub, nftIssueRecord]
  ring_nf

theorem decodeNFTTransfer_eq (H : List Byte → List Byte) (s : List Byte) (txo : TxoData)
    (h : 1024 ≤ s.length) :
    decodeNFTTransfer H s.length s txo = some (true, nftTransferRecord H s txo) := by
  unfold decodeNFTTransfer
  simp (disch := omega) only [slice_eq_some, Uint64_sub, bind, Option.bind, pure]
  simp (disch := omega) only [copy_make_sub, nftTransferRecord]
  ring_nf

theorem nftIssueCond_eq (s : List Byte) (h : 1024 ≤ s.length) :
    nftIssueCond s.length s = some (decide (nftIssueMatch s)) := by
  unfold nftIssueCond nftIssueMatch
  simp (disch := omega) only [index_eq_some, bind, Option.bind, pure]
  ring_nf
  by_cases h1 : idx s (-1 + (s.length : Int)) < 2 <;>
  by_cases h2 : idx s (-38 + (s.length : Int)) = 37 <;>
  by_cases h3 : idx s (-79 + (s.length : Int)) = 40 <;>
  by_cases h4 : idx s (-80 + (s.length : Int)) = OP_RETURN <;>
  simp [h1, h2, h3, h4]

theorem nftTransferCond_eq (s : List Byte) (h : 1024 ≤ s.length) :
    nftTransferCond s.length s = some (decide (nftTransferMatch s)) := by
  unfold nftTransferCond nftTransferMatch
  simp (disch := omega) only [index_eq_some, bind, Option.bind, pure]
  ring_nf
  by_cases h1 : idx s (-1 + (s.length : Int)) = 1 <;>
  by_cases h2 : idx s (-62 + (s.length : Int)) = 61 <;>
  by_cases h3 : idx s (-103 + (s.length : Int)) = 40 <;>
  by_cases h4 : idx s (-104 + (s.length : Int)) = OP_RETURN <;>
  simp [h1, h2, h3, h4]

theorem DecodeSensibleTxo_eq (H : List Byte → List Byte) (s : List Byte) (txo : TxoData)
    (h : 1024 ≤ s.length) :
    DecodeSensibleTxo H s txo =
      if hasSensibleFlag s = true then
        if idx s ((s.length : Int) - 12) = 1 then decodeFT H s.length s txo
        else if idx s ((s.length : Int) - 12) = 2 then decodeUnique H s.length s txo
        else some (false, txo)
      else if nftIssueMatch s then decodeNFTIssue H s.length s txo
      else if nftTransferMatch s then decodeNFTTransfer H s.length s txo
      else some (false, txo) := by
  have hn : ¬ ((s.length : Int) < 1024) := by omega
  have e : (s.length : Int) - 8 - 4 = s.length - 12 := by omega
  unfold DecodeSensibleTxo
  simp (disch := omega) only [hn, if_false, e, index_eq_some, nftIssueCond_eq, nftTransferCond_eq,
    bind, Option.bind, pure]
  by_cases hf : hasSensibleFlag s = true
  · simp only [hf, if_true]
    by_cases h1 : idx s ((s.length : Int) - 12) = 1
    · simp [h1]
    · by_cases h2 : idx s ((s.length : Int) - 12) = 2
      · simp [h1, h2]
      · simp [h1, h2]
  · simp only [hf, if_false]
    by_cases h1 : nftIssueMatch s
    · simp [h1]
    · by_cases h2 : nftTransferMatch s
      · simp [h1, h2]
      · simp [h1, h2]

theorem index_eq_some_iff (s : List Byte) (i : Int) (v : Byte) (h0 : 0 ≤ i)
    (h1 : i < (s.length : Int)) : index s i = some v ↔ idx s i = v := by
  rw [index_eq_some s i h0 h1]
  exact Option.some_inj

theorem HasSuffix_iff (s t : List Byte) : HasSuffix s t = true ↔ t <:+ s := by
  unfold HasSuffix
  constructor
  · intro h
    simp only [Bool.and_eq_true, decide_eq_true_eq, beq_iff_eq] at h
    have e := List.take_append_drop (s.length - t.length) s
    rw [h.2] at e
    exact ⟨_, e⟩
  · rintro ⟨p, rfl⟩
    simp

theorem hasSensibleFlag_iff (s : List Byte) : hasSensibleFlag s = true ↔ endsWithFlag s := by
  simp [hasSensibleFlag, endsWithFlag, HasSuffix_iff]

theorem ftSel_isSome_iff (s : List Byte) (h : 1024 ≤ s.length) :
    (ftSel s).isSome = true ↔ ftAnyProbe s := by
  have e1 : (s.length : Int) - 150 + 1 = s.length - 149 := by omega
  have e2 : (s.length : Int) - 110 + 1 = s.length - 109 := by omega
  have e3 : (s.length : Int) - 94 + 1 = s.length - 93 := by omega
  have e4 : (s.length : Int) - 88 + 1 = s.length - 87 := by omega
  have e5 : (s.length : Int) - 114 + 1 = s.length - 113 := by omega
  simp (disch := omega) only [ftAnyProbe, ftProbe, e1, e2, e3, e4, e5, index_eq_some_iff, ftSel]
  split_ifs <;> simp_all

theorem decodeFT_isSome (H : List Byte → List Byte) (s : List Byte) (txo : TxoData)
    (h : 1024 ≤ s.length) : (decodeFT H s.length s txo).isSome = true := by
  rw [decodeFT_eq H s txo h]; rfl

theorem decodeUnique_isSome (H : List Byte → List Byte) (s : List Byte) (txo : TxoData)
    (h : 1024 ≤ s.length) : (decodeUnique H s.length s txo).isSome = true := by
  rw [decodeUnique_eq H s txo h]; rfl

theorem DecodeSensibleTxo_isSome (H : List Byte → List Byte) (s : List Byte) (txo : TxoData)
    (h : 1024 ≤ s.length) : (DecodeSensibleTxo H s txo).isSome = true := by
  rw [DecodeSensibleTxo_eq H s txo h]
  split_ifs
  · exact decodeFT_isSome H s txo h
  · exact decodeUnique_isSome H s txo h
  · rfl
  · rw [decodeNFTIssue_eq H s txo h]; rfl
  · rw [decodeNFTTransfer_eq H s txo h]; rfl
  · rfl

theorem uniqueValid_iff (s : List Byte) (h : 1024 ≤ s.length) :
    uniqueValid s ↔
      uniqueDataLen s < s.length ∧ idx s ((s.length : Int) - uniqueDataLen s) = OP_RETURN := by
  have hb := uniqueDataLen_bounds s h
  have s1 := slice_eq_some s ((s.length : Int) - 53) ((s.length : Int) - 49)
    (by omega) (by omega) (by omega)
  have s2 := Uint32_sub s ((s.length : Int) - 53) ((s.length : Int) - 49)
    (by omega) (by omega) (by omega)
  have hc : (slice s ((s.length : Int) - 53) ((s.length : Int) - 49)).bind Uint32
      = some (uniqueSize s) := by
    rw [s1, Option.some_bind, s2]; rfl
  have hD : uniqueTotal (uniqueSize s) = uniqueDataLen s := rfl
  unfold uniqueValid
  rw [hc]
  constructor
  · rintro ⟨c, hc', h1, h2⟩
    have e : uniqueSize s = c := Option.some_inj.mp hc'
    subst e
    rw [hD] at h1 h2
    exact ⟨h1, (index_eq_some_iff s _ _ (by omega) (by omega)).mp h2⟩
  · rintro ⟨h1, h2⟩
    refine ⟨uniqueSize s, rfl, ?_, ?_⟩
    · rw [hD]; exact h1
    · rw [hD]; exact (index_eq_some_iff s _ _ (by omega) (by omega)).mpr h2

theorem nftIssueMarkers_iff (s : List Byte) (h : 1024 ≤ s.length) :
    nftIssueMarkers s ↔ nftIssueMatch s := by
  unfold nftIssueMarkers nftIssueMatch
  simp (disch := omega) only [index_eq_some_iff, index_eq_some, Option.some.injEq]
  constructor
  · rintro ⟨⟨b, rfl, hb⟩, h2⟩
    exact ⟨hb, h2⟩
  · rintro ⟨h1, h2⟩
    exact ⟨⟨_, rfl, h1⟩, h2⟩

theorem nftTransferMarkers_iff (s : List Byte) (h : 1024 ≤ s.length) :
    nftTransferMarkers s ↔ nftTransferMatch s := by
  unfold nftTransferMarkers nftTransferMatch
  simp (disch := omega) only [index_eq_some_iff]

theorem sub_of_eq (s A X B : List Byte) (lo hi : Int) (hs : s = A ++ (X ++ B))
    (hlo : lo = A.length) (hhi : hi = (A.length : Int) + X.length) : sub s lo hi = X := by
  subst hs hlo hhi
  have e1 : ((A.length : Nat) : Int).toNat = A.length := Int.toNat_ofNat _
  have e2 : ((A.length : Int) + X.length).toNat - A.length = X.length := by omega
  simp only [sub, e1, e2, List.drop_left, List.take_left]

theorem idx_of_eq (s A : List Byte) (x : Byte) (B : List Byte) (i : Int) (hs : s = A ++ x :: B)
    (hi : i = A.length) : idx s i = x := by
  subst hs hi
  unfold idx
  rw [Int.toNat_ofNat, List.getD_eq_getElem?_getD, List.getElem?_append_right (le_refl _),
    Nat.sub_self]
  simp

theorem length_leBytes (k m : Nat) : (leBytes k m).length = k := by
  induction k generalizing m with
  | zero => rfl
  | succ k ih => simp [leBytes, ih]

theorem leNat_leBytes (k m : Nat) : leNat (leBytes k m) = m % 256 ^ k := by
  induction k generalizing m with
  | zero => simp [leBytes, leNat, Nat.mod_one]
  | succ k ih =>
    have h1 : (UInt8.ofNat (m % 256)).toNat = m % 256 :=
      UInt8.toNat_ofNat_of_lt (Nat.mod_lt _ (by decide))
    simp only [leBytes, leNat, ih, h1, pow_succ]
    rw [Nat.mul_comm (256 ^ k) 256, Nat.mod_mul]

theorem leNat_leBytes_of_lt (k m : Nat) (h : m < 256 ^ k) : leNat (leBytes k m) = m := by
  rw [leNat_leBytes, Nat.mod_eq_of_lt h]

theorem length_of_flag (f : List Byte) (hf : f = flagSensible ∨ f = flagOraclesv) :
    f.length = 8 := by
  rcases hf with rfl | rfl <;> rfl

theorem endsWithFlag_append (A f : List Byte) (hf : f = flagSensible ∨ f = flagOraclesv) :
    endsWithFlag (A ++ f) := by
  rcases hf with rfl | rfl
  · exact Or.inl ⟨A, rfl⟩
  · exact Or.inr ⟨A, rfl⟩

theorem length_ftScript (p : List Byte) (l : Byte) (n sym : List Byte) (g d : Byte)
    (a : List Byte) (m : Nat) (G : List Byte) (t1 t2 t3 : Byte) (f : List Byte) :
    (ftScript p l n sym g d a m G t1 t2 t3 f).length =
      p.length + 3 + n.length + sym.length + 2 + a.length + 8 + G.length + 4 + f.length := by
  simp only [ftScript, List.length_append, List.length_cons, List.length_nil, length_leBytes]

theorem ftScript_fields (p : List Byte) (l : Byte) (n sym : List Byte) (g d : Byte)
    (a : List Byte) (m : Nat) (G : List Byte) (t1 t2 t3 : Byte) (f : List Byte) (gl : Int)
    (hn : n.length = 20) (hs : sym.length = 10) (ha : a.length = 20) (hG : (G.length : Int) = gl)
    (hf : f.length = 8) :
    let S := ftScript p l n sym g d a m G t1 t2 t3 f
    let N : Int := S.length
    idx S (N - 12) = 1 ∧ idx S (N - 12 - gl - 29) = d ∧
      sub S (N - 12 - gl - 40) (N - 12 - gl - 30) = sym ∧
      sub S (N - 12 - gl - 60) (N - 12 - gl - 40) = n ∧
      sub S (N - 12 - gl - 8) (N - 12 - gl) = leBytes 8 m ∧
      sub S (N - 12 - gl - 28) (N - 12 - gl - 8) = a ∧
      sub S 0 (N - (gl + 75)) = p ∧
      sub S (N - 12 - gl) (N - 12) = G ∧
      idx S (N - (gl + 74)) = 0x4c ∧ idx S (N - (gl + 73)) = l := by
  intro S N
  have hN : N = p.length + 3 + 20 + 10 + 2 + 20 + 8 + gl + 4 + 8 := by
    show ((ftScript p l n sym g d a m G t1 t2 t3 f).length : Int) = _
    rw [length_ftScript, hn, hs, ha, hf, ← hG]
    push_cast
    ring
  have hl := length_leBytes 8 m
  refine ⟨?_, ?_, ?_, ?_, ?_, ?_, ?_, ?_, ?_, ?_⟩
  · exact idx_of_eq S (p ++ [0x6a, 0x4c, l] ++ n ++ sym ++ [g, d] ++ a ++ leBytes 8 m ++ G) 1
      ([t1, t2, t3] ++ f) _ (by simp [S, ftScript])
      (by simp only [List.length_append, List.length_cons, List.length_nil, hn, hs, ha, hl]
          push_cast; omega)
  · exact idx_of_eq S (p ++ [0x6a, 0x4c, l] ++ n ++ sym ++ [g]) d
      (a ++ leBytes 8 m ++ G ++ [1, t1, t2, t3] ++ f) _ (by simp [S, ftScript])
      (by simp only [List.length_append, List.length_cons, List.length_nil, hn, hs, ha, hl]
          push_cast; omega)
  · exact sub_of_eq S (p ++ [0x6a, 0x4c, l] ++ n) (sym)
      ([g, d] ++ a ++ leBytes 8 m ++ G ++ [1, t1, t2, t3] ++ f) _ _ (by simp [S, ftScript])
      (by simp only [List.length_append, List.length_cons, List.length_nil, hn, hs, ha, hl]
          push_cast; omega)
      (by simp only [List.length_append, List.length_cons, List.length_nil, hn, hs, ha, hl]
          push_cast; omega)
  · exact sub_of_eq S (p ++ [0x6a, 0x4c, l]) (n)
      (sym ++ [g, d] ++ a ++ leBytes 8 m ++ G ++ [1, t1, t2, t3] ++ f) _ _ (by simp [S, ftScript])
      (by simp only [List.length_append, List.length_cons, List.length_nil, hn, hs, ha, hl]
          push_cast; omega)
      (by simp only [List.length_append, List.length_cons, List.length_nil, hn, hs, ha, hl]
          push_cast; omega)
  · exact sub_of_eq S (p ++ [0x6a, 0x4c, l] ++ n ++ sym ++ [g, d] ++ a) (leBytes 8 m)
      (G ++ [1, t1, t2, t3] ++ f) _ _ (by simp [S, ftScript])
      (by simp only [List.length_append, List.length_cons, List.length_nil, hn, hs, ha, hl]
          push_cast; omega)
      (by simp only [List.length_append, List.length_cons, List.length_nil, hn, hs, ha, hl]
          push_cast; omega)
  · exact sub_of_eq S (p ++ [0x6a, 0x4c, l] ++ n ++ sym ++ [g, d]) (a)
      (leBytes 8 m ++ G ++ [1, t1, t2, t3] ++ f) _ _ (by simp [S, ftScript])
      (by simp only [List.length_append, List.length_cons, List.length_nil, hn, hs, ha, hl]
          push_cast; omega)
      (by simp only [List.length_append, List.length_cons, List.length_nil, hn, hs, ha, hl]
          push_cast; omega)
  · exact sub_of_eq S ([]) (p)
      ([0x6a, 0x4c, l] ++ n ++ sym ++ [g, d] ++ a ++ leBytes 8 m ++ G ++ [1, t1, t2, t3] ++ f) _ _ (by simp [S, ftScript])
      rfl
      (by simp only [List.length_append, List.length_cons, List.length_nil, hn, hs, ha, hl]
          push_cast; omega)
  · exact sub_of_eq S (p ++ [0x6a, 0x4c, l] ++ n ++ sym ++ [g, d] ++ a ++ leBytes 8 m) (G)
      ([1, t1, t2, t3] ++ f) _ _ (by simp [S, ftScript])
      (by simp only [List.length_append, List.length_cons, List.length_nil, hn, hs, ha, hl]
          push_cast; omega)
      (by simp only [List.length_append, List.length_cons, List.length_nil, hn, hs, ha, hl]
          push_cast; omega)
  · exact idx_of_eq S (p ++ [0x6a]) 0x4c
      ([l] ++ n ++ sym ++ [g, d] ++ a ++ leBytes 8 m ++ G ++ [1, t1, t2, t3] ++ f) _ (by simp [S, ftScript])
      (by simp only [List.length_append, List.length_cons, List.length_nil, hn, hs, ha, hl]
          push_cast; omega)
  · exact idx_of_eq S (p ++ [0x6a, 0x4c]) l
      (n ++ sym ++ [g, d] ++ a ++ leBytes 8 m ++ G ++ [1, t1, t2, t3] ++ f) _ (by simp [S, ftScript])
      (by simp only [List.length_append, List.length_cons, List.length_nil, hn, hs, ha, hl]
          push_cast; omega)

theorem ftScript_sensibleId (p : List Byte) (l : Byte) (n sym : List Byte) (g d : Byte)
    (a : List Byte) (m : Nat) (G : List Byte) (t1 t2 t3 : Byte) (f : List Byte)
    (hG : G.length = 76) (hf : f.length = 8) :
    sub (ftScript p l n sym g d a m G t1 t2 t3 f)
      (((ftScript p l n sym g d a m G t1 t2 t3 f).length : Int) - 48)
      (((ftScript p l n sym g d a m G t1 t2 t3 f).length : Int) - 12) = G.drop 40 := by
  have hl := length_leBytes 8 m
  have hG2 : G.take 40 ++ G.drop 40 = G := List.take_append_drop 40 G
  have h1 : (G.take 40).length = 40 := by rw [List.length_take, hG]; rfl
  have h2 : (G.drop 40).length = 36 := by rw [List.length_drop, hG]
  refine sub_of_eq _ (p ++ [0x6a, 0x4c, l] ++ n ++ sym ++ [g, d] ++ a ++ leBytes 8 m ++ G.take 40)
    (G.drop 40) ([1, t1, t2, t3] ++ f) _ _ ?_ ?_ ?_
  · simp only [ftScript, List.append_assoc, List.append_cancel_left_eq]
    rw [← List.append_assoc (List.take 40 G), hG2]
  · rw [length_ftScript, hG, hf]
    simp only [List.length_append, List.length_cons, List.length_nil, hl, h1]
    push_cast; omega
  · rw [length_ftScript, hG, hf]
    simp only [List.length_append, List.length_cons, List.length_nil, hl, h1, h2]
    push_cast; omega

theorem ftProbe_iff (s : List Byte) (k k' : Int) (b : Byte) (h : 1024 ≤ s.length)
    (hk : 2 ≤ k ∧ k ≤ 1024) (hk' : k' = k - 1) :
    ftProbe s k b ↔ idx s ((s.length : Int) - k) = 0x4c ∧ idx s ((s.length : Int) - k') = b := by
  have e : (s.length : Int) - k + 1 = s.length - k' := by omega
  unfold ftProbe
  rw [e, index_eq_some_iff s _ _ (by omega) (by omega),
    index_eq_some_iff s _ _ (by omega) (by omega)]

theorem not_endsWithFlag_of_last (A : List Byte) (b : Byte) (h1 : b ≠ 0x65) (h2 : b ≠ 0x76) :
    ¬ endsWithFlag (A ++ [b]) := by
  rintro (⟨q, hq⟩ | ⟨q, hq⟩)
  · have e := congrArg List.reverse hq
    simp [flagSensible] at e
    exact h1 e.1.symm
  · have e := congrArg List.reverse hq
    simp [flagOraclesv] at e
    exact h2 e.1.symm

theorem length_nftTransferScript (p G a : List Byte) (t : Nat) (M : List Byte) :
    (nftTransferScript p G a t M).length =
      p.length + 2 + G.length + 1 + a.length + 8 + M.length + 1 := by
  simp only [nftTransferScript, List.length_append, List.length_cons, List.length_nil,
    length_leBytes]

theorem length_nftIssueScript (p G a x y : List Byte) :
    (nftIssueScript p G a x y).length =
      p.length + 2 + G.length + 1 + a.length + x.length + y.length + 1 := by
  simp only [nftIssueScript, List.length_append, List.length_cons, List.length_nil]

theorem nftTransferScript_fields (p G a : List Byte) (t : Nat) (M : List Byte)
    (hG : G.length = 40) (ha : a.length = 20) (hM : M.length = 32) :
    let S := nftTransferScript p G a t M
    let N : Int := S.length
    idx S (N - 1) = 1 ∧ idx S (N - 62) = 61 ∧ idx S (N - 103) = 40 ∧ idx S (N - 104) = 0x6a ∧
      sub S 0 (N - 104) = p ∧ sub S (N - 102) (N - 62) = G ∧ sub S (N - 33) (N - 1) = M ∧
      sub S (N - 41) (N - 33) = leBytes 8 t ∧ sub S (N - 61) (N - 41) = a := by
  intro S N
  have hN : N = p.length + 104 := by
    show ((nftTransferScript p G a t M).length : Int) = _
    rw [length_nftTransferScript, hG, ha, hM]
    push_cast
    ring
  have hl := length_leBytes 8 t
  refine ⟨?_, ?_, ?_, ?_, ?_, ?_, ?_, ?_, ?_⟩
  · exact idx_of_eq S (p ++ [0x6a, 0x28] ++ G ++ [0x3d] ++ a ++ leBytes 8 t ++ M) 1
      ([]) _ (by simp [S, nftTransferScript])
      (by simp only [List.length_append, List.length_cons, List.length_nil, hG, ha, hM, hl]
          push_cast; omega)
  · exact idx_of_eq S (p ++ [0x6a, 0x28] ++ G) 61
      (a ++ leBytes 8 t ++ M ++ [0x01]) _ (by simp [S, nftTransferScript])
      (by simp only [List.length_append, List.length_cons, List.length_nil, hG, ha, hM, hl]
          push_cast; omega)
  · exact idx_of_eq S (p ++ [0x6a]) 40
      (G ++ [0x3d] ++ a ++ leBytes 8 t ++ M ++ [0x01]) _ (by simp [S, nftTransferScript])
      (by simp only [List.length_append, List.length_cons, List.length_nil, hG, ha, hM, hl]
          push_cast; omega)
  · exact idx_of_eq S (p) 0x6a
      ([0x28] ++ G ++ [0x3d] ++ a ++ leBytes 8 t ++ M ++ [0x01]) _ (by simp [S, nftTransferScript])
      (by omega)
  · exact sub_of_eq S ([]) (p)
      ([0x6a, 0x28] ++ G ++ [0x3d] ++ a ++ leBytes 8 t ++ M ++ [0x01]) _ _ (by simp [S, nftTransferScript])
      rfl
      (by simp only [List.length_append, List.length_cons, List.length_nil, hG, ha, hM, hl]
          push_cast; omega)
  · exact sub_of_eq S (p ++ [0x6a, 0x28]) (G)
      ([0x3d] ++ a ++ leBytes 8 t ++ M ++ [0x01]) _ _ (by simp [S, nftTransferScript])
      (by simp only [List.length_append, List.length_cons, List.length_nil, hG, ha, hM, hl]
          push_cast; omega)
      (by simp only [List.length_append, List.length_cons, List.length_nil, hG, ha, hM, hl]
          push_cast; omega)
  · exact sub_of_eq S (p ++ [0x6a, 0x28] ++ G ++ [0x3d] ++ a ++ leBytes 8 t) (M)
      ([0x01]) _ _ (by simp [S, nftTransferScript])
      (by simp only [List.length_append, List.length_cons, List.length_nil, hG, ha, hM, hl]
          push_cast; omega)
      (by simp only [List.length_append, List.length_cons, List.length_nil, hG, ha, hM, hl]
          push_cast; omega)
  · exact sub_of_eq S (p ++ [0x6a, 0x28] ++ G ++ [0x3d] ++ a) (leBytes 8 t)
      (M ++ [0x01]) _ _ (by simp [S, nftTransferScript])
      (by simp only [List.length_append, List.length_cons, List.length_nil, hG, ha, hM, hl]
          push_cast; omega)
      (by simp only [List.length_append, List.length_cons, List.length_nil, hG, ha, hM, hl]
          push_cast; omega)
  · exact sub_of_eq S (p ++ [0x6a, 0x28] ++ G ++ [0x3d]) (a)
      (leBytes 8 t ++ M ++ [0x01]) _ _ (by simp [S, nftTransferScript])
      (by simp only [List.length_append, List.length_cons, List.length_nil, hG, ha, hM, hl]
          push_cast; omega)
      (by simp only [List.length_append, List.length_cons, List.length_nil, hG, ha, hM, hl]
          push_cast; omega)

theorem nftIssueScript_fields (p G a x y : List Byte)
    (hG : G.length = 40) (ha : a.length = 20) (hx : x.length = 8) (hy : y.length = 8) :
    let S := nftIssueScript p G a x y
    let N : Int := S.length
    idx S (N - 1) = 0 ∧ idx S (N - 38) = 37 ∧ idx S (N - 79) = 40 ∧ idx S (N - 80) = 0x6a ∧
      sub S 0 (N - 80) = p ∧ sub S (N - 78) (N - 38) = G ∧ sub S (N - 9) (N - 1) = y ∧
      sub S (N - 37) (N - 17) = a := by
  intro S N
  have hN : N = p.length + 80 := by
    show ((nftIssueScript p G a x y).length : Int) = _
    rw [length_nftIssueScript, hG, ha, hx, hy]
    push_cast
    ring
  refine ⟨?_, ?_, ?_, ?_, ?_, ?_, ?_, ?_⟩
  · exact idx_of_eq S (p ++ [0x6a, 0x28] ++ G ++ [0x25] ++ a ++ x ++ y) 0
      ([]) _ (by simp [S, nftIssueScript])
      (by simp only [List.length_append, List.length_cons, List.length_nil, hG, ha, hx, hy]
          push_cast; omega)
  · exact idx_of_eq S (p ++ [0x6a, 0x28] ++ G) 37
      (a ++ x ++ y ++ [0x00]) _ (by simp [S, nftIssueScript])
      (by simp only [List.length_append, List.length_cons, List.length_nil, hG, ha, hx, hy]
          push_cast; omega)
  · exact idx_of_eq S (p ++ [0x6a]) 40
      (G ++ [0x25] ++ a ++ x ++ y ++ [0x00]) _ (by simp [S, nftIssueScript])
      (by simp only [List.length_append, List.length_cons, List.length_nil, hG, ha, hx, hy]
          push_cast; omega)
  · exact idx_of_eq S (p) 0x6a
      ([0x28] ++ G ++ [0x25] ++ a ++ x ++ y ++ [0x00]) _ (by simp [S, nftIssueScript])
      (by omega)
  · exact sub_of_eq S ([]) (p)
      ([0x6a, 0x28] ++ G ++ [0x25] ++ a ++ x ++ y ++ [0x00]) _ _ (by simp [S, nftIssueScript])
      rfl
      (by simp only [List.length_append, List.length_cons, List.length_nil, hG, ha, hx, hy]
          push_cast; omega)
  · exact sub_of_eq S (p ++ [0x6a, 0x28]) (G)
      ([0x25] ++ a ++ x ++ y ++ [0x00]) _ _ (by simp [S, nftIssueScript])
      (by simp only [List.length_append, List.length_cons, List.length_nil, hG, ha, hx, hy]
          push_cast; omega)
      (by simp only [List.length_append, List.length_cons, List.length_nil, hG, ha, hx, hy]
          push_cast; omega)
  · exact sub_of_eq S (p ++ [0x6a, 0x28] ++ G ++ [0x25] ++ a ++ x) (y)
      ([0x00]) _ _ (by simp [S, nftIssueScript])
      (by simp only [List.length_append, List.length_cons, List.length_nil, hG, ha, hx, hy]
          push_cast; omega)
      (by simp only [List.length_append, List.length_cons, List.length_nil, hG, ha, hx, hy]
          push_cast; omega)
  · exact sub_of_eq S (p ++ [0x6a, 0x28] ++ G ++ [0x25]) (a)
      (x ++ y ++ [0x00]) _ _ (by simp [S, nftIssueScript])
      (by simp only [List.length_append, List.length_cons, List.length_nil, hG, ha, hx, hy]
          push_cast; omega)
      (by simp only [List.length_append, List.length_cons, List.length_nil, hG, ha, hx, hy]
          push_cast; omega)

theorem length_uniqueScript (p : List Byte) (op : Byte) (V C R G : List Byte) (t1 t2 t3 : Byte)
    (f : List Byte) :
    (uniqueScript p op V C R G t1 t2 t3 f).length =
      p.length + 2 + V.length + C.length + R.length + G.length + 4 + f.length := by
  simp only [uniqueScript, List.length_append, List.length_cons, List.length_nil]

theorem uniqueScript_fields (p : List Byte) (op : Byte) (V C : List Byte) (c : Nat) (r : Byte)
    (G : List Byte) (t1 t2 t3 : Byte) (f : List Byte) (hG : G.length = 36) (hf : f.length = 8) :
    let S := uniqueScript p op V C (leBytes 4 c ++ [r]) G t1 t2 t3 f
    let N : Int := S.length
    idx S (N - 12) = 2 ∧ sub S (N - 53) (N - 49) = leBytes 4 c ∧ sub S (N - 48) (N - 12) = G ∧
      sub S 0 (p.length : Int) = p ∧ idx S (p.length : Int) = 0x6a := by
  intro S N
  have hl := length_leBytes 4 c
  have hN : N = p.length + 2 + V.length + C.length + 5 + 36 + 12 := by
    show ((uniqueScript p op V C (leBytes 4 c ++ [r]) G t1 t2 t3 f).length : Int) = _
    rw [length_uniqueScript, hG, hf]
    simp only [List.length_append, List.length_cons, List.length_nil, hl]
    push_cast
    ring
  refine ⟨?_, ?_, ?_, ?_, ?_⟩
  · exact idx_of_eq S (p ++ [0x6a, op] ++ V ++ C ++ (leBytes 4 c ++ [r]) ++ G) 2
      ([t1, t2, t3] ++ f) _ (by simp [S, uniqueScript])
      (by simp only [List.length_append, List.length_cons, List.length_nil, hG, hl]
          push_cast; omega)
  · exact sub_of_eq S (p ++ [0x6a, op] ++ V ++ C) (leBytes 4 c)
      ([r] ++ G ++ [2, t1, t2, t3] ++ f) _ _ (by simp [S, uniqueScript])
      (by simp only [List.length_append, List.length_cons, List.length_nil, hG, hl]
          push_cast; omega)
      (by simp only [List.length_append, List.length_cons, List.length_nil, hG, hl]
          push_cast; omega)
  · exact sub_of_eq S (p ++ [0x6a, op] ++ V ++ C ++ (leBytes 4 c ++ [r])) G
      ([2, t1, t2, t3] ++ f) _ _ (by simp [S, uniqueScript])
      (by simp only [List.length_append, List.length_cons, List.length_nil, hG, hl]
          push_cast; omega)
      (by simp only [List.length_append, List.length_cons, List.length_nil, hG, hl]
          push_cast; omega)
  · exact sub_of_eq S [] p
      ([0x6a, op] ++ V ++ C ++ (leBytes 4 c ++ [r]) ++ G ++ [2, t1, t2, t3] ++ f) _ _
      (by simp [S, uniqueScript]) rfl
      (by simp only [List.length_nil]; push_cast; omega)
  · exact idx_of_eq S p 0x6a
      ([op] ++ V ++ C ++ (leBytes 4 c ++ [r]) ++ G ++ [2, t1, t2, t3] ++ f) _
      (by simp [S, uniqueScript]) rfl

theorem uniqueSize_eq (s : List Byte) (h : 1024 ≤ s.length) :
    (slice s ((s.length : Int) - 53) ((s.length : Int) - 49)).bind Uint32
      = some (uniqueSize s) := by
  rw [slice_eq_some s _ _ (by omega) (by omega) (by omega), Option.some_bind,
    Uint32_sub s _ _ (by omega) (by omega) (by omega)]
  rfl

theorem getVarIntLen_u32 (c : Nat) (hc : c < 2 ^ 32) :
    getVarIntLen (c : Int) = if c < 0xfd then 1 else if c ≤ 0xffff then 3 else 5 := by
  unfold getVarIntLen
  have h3 : (c : Int) ≤ 0xffffffff := by omega
  by_cases h1 : c < 0xfd
  · have h1' : (c : Int) < 0xfd := by omega
    rw [if_pos h1, if_pos h1']
  · have h1' : ¬ (c : Int) < 0xfd := by omega
    rw [if_neg h1, if_neg h1']
    by_cases h2 : c ≤ 0xffff
    · have h2' : (c : Int) ≤ 0xffff := by omega
      rw [if_pos h2, if_pos h2']
    · have h2' : ¬ (c : Int) ≤ 0xffff := by omega
      rw [if_neg h2, if_neg h2', if_pos h3]

/-! ## The specification's claims -/

set_option maxRecDepth 100000

/-- C1: a script shorter than 1024 bytes is rejected, and the record is handed back
with every field unchanged. -/
theorem DecodeSensibleTxo_short (H : List Byte → List Byte) (s : List Byte) (txo : TxoData)
    (h : s.length < 1024) : DecodeSensibleTxo H s txo = some (false, txo) := by
  have h' : (s.length : Int) < 1024 := by omega
  simp [DecodeSensibleTxo, h']

/-- Witness of C1: the scenario input of 1023 zero bytes. -/
theorem DecodeSensibleTxo_short_witness :
    (List.replicate 1023 (0 : Byte)).length < 1024 ∧
      DecodeSensibleTxo lengthHash (List.replicate 1023 0) txo0 = some (false, txo0) :=
  ⟨by rw [List.length_replicate]; omega,
    DecodeSensibleTxo_short lengthHash (List.replicate 1023 0) txo0
      (by rw [List.length_replicate]; omega)⟩

/-- C2: on a script of at least 1024 bytes neither the dispatcher nor any of the four
sub-decoders takes the out-of-range branch of an index or slice expression (the
result is never `none`), whatever the bytes are; the `dataLen` of `decodeUnique` is
computed with 64-bit wrap-around. -/
theorem decoder_reads_in_bounds (H : List Byte → List Byte) (s : List Byte) (txo : TxoData)
    (h : 1024 ≤ s.length) :
    (DecodeSensibleTxo H s txo).isSome = true ∧
      (decodeFT H s.length s txo).isSome = true ∧
      (decodeUnique H s.length s txo).isSome = true ∧
      (decodeNFTIssue H s.length s txo).isSome = true ∧
      (decodeNFTTransfer H s.length s txo).isSome = true := by
  refine ⟨DecodeSensibleTxo_isSome H s txo h, decodeFT_isSome H s txo h,
    decodeUnique_isSome H s txo h, ?_, ?_⟩
  · rw [decodeNFTIssue_eq H s txo h]; rfl
  · rw [decodeNFTTransfer_eq H s txo h]; rfl

/-- Witness of C2: a 1024-byte script of `0xff` bytes. -/
theorem decoder_reads_in_bounds_witness :
    1024 ≤ (List.replicate 1024 (0xff : Byte)).length ∧
      (DecodeSensibleTxo lengthHash (List.replicate 1024 0xff) txo0).isSome = true ∧
      (decodeFT lengthHash (List.replicate 1024 (0xff : Byte)).length
        (List.replicate 1024 0xff) txo0).isSome = true ∧
      (decodeUnique lengthHash (List.replicate 1024 (0xff : Byte)).length
        (List.replicate 1024 0xff) txo0).isSome = true ∧
      (decodeNFTIssue lengthHash (List.replicate 1024 (0xff : Byte)).length
        (List.replicate 1024 0xff) txo0).isSome = true ∧
      (decodeNFTTransfer lengthHash (List.replicate 1024 (0xff : Byte)).length
        (List.replicate 1024 0xff) txo0).isSome = true :=
  ⟨by rw [List.length_replicate],
    decoder_reads_in_bounds lengthHash (List.replicate 1024 0xff) txo0
      (by rw [List.length_replicate])⟩

/-- C3: on a script of at least 1024 bytes the decoder returns, and it returns true
exactly when (i) the script ends with a flag, `script[len-12]` is 1 and one of the
five FT probes matches, or (ii) it ends with a flag, `script[len-12]` is 2 and the
Unique validation passes, or (iii) it has no flag suffix and carries the NFT-issue
markers, or (iv) it has no flag suffix and carries the NFT-transfer markers. -/
theorem DecodeSensibleTxo_true_iff (H : List Byte → List Byte) (s : List Byte) (txo : TxoData)
    (h : 1024 ≤ s.length) :
    ∃ ret txo', DecodeSensibleTxo H s txo = some (ret, txo') ∧
      (ret = true ↔
        (endsWithFlag s ∧ index s ((s.length : Int) - 12) = some 1 ∧ ftAnyProbe s) ∨
        (endsWithFlag s ∧ index s ((s.length : Int) - 12) = some 2 ∧ uniqueValid s) ∨
        (¬ endsWithFlag s ∧ nftIssueMarkers s) ∨
        (¬ endsWithFlag s ∧ nftTransferMarkers s)) := by
  have hb := uniqueDataLen_bounds s h
  rw [DecodeSensibleTxo_eq H s txo h, decodeFT_eq H s txo h, decodeUnique_eq H s txo h,
    decodeNFTIssue_eq H s txo h, decodeNFTTransfer_eq H s txo h, ← hasSensibleFlag_iff,
    ← ftSel_isSome_iff s h, uniqueValid_iff s h, nftIssueMarkers_iff s h,
    nftTransferMarkers_iff s h, index_eq_some_iff s _ _ (by omega) (by omega),
    index_eq_some_iff s _ _ (by omega) (by omega)]
  by_cases hf : hasSensibleFlag s = true
  · rw [if_pos hf]
    by_cases h1 : idx s ((s.length : Int) - 12) = 1
    · rw [if_pos h1]
      rcases ftSel_cases s with e | e | e | e | e | e <;> rw [e] <;>
        exact ⟨_, _, rfl, by simp [hf, h1]⟩
    · rw [if_neg h1]
      by_cases h2 : idx s ((s.length : Int) - 12) = 2
      · rw [if_pos h2]
        by_cases hv : uniqueDataLen s ≥ s.length ∨
            idx s (s.length - uniqueDataLen s) ≠ OP_RETURN
        · rw [if_pos hv]
          refine ⟨_, _, rfl, ?_⟩
          have : ¬ (uniqueDataLen s < s.length ∧ idx s (s.length - uniqueDataLen s) = OP_RETURN) := by
            rintro ⟨a, b⟩
            rcases hv with hv | hv
            · omega
            · exact hv b
          simp [hf, h1, h2, this]
        · rw [if_neg hv]
          refine ⟨_, _, rfl, ?_⟩
          have : uniqueDataLen s < s.length ∧ idx s (s.length - uniqueDataLen s) = OP_RETURN := by
            constructor
            · by_contra hc; exact hv (Or.inl (by omega))
            · by_contra hc; exact hv (Or.inr hc)
          simp [hf, h2, this]
      · rw [if_neg h2]
        exact ⟨_, _, rfl, by simp [hf, h1, h2]⟩
  · rw [if_neg hf]
    by_cases h1 : nftIssueMatch s
    · rw [if_pos h1]
      exact ⟨_, _, rfl, by simp [hf, h1]⟩
    · rw [if_neg h1]
      by_cases h2 : nftTransferMatch s
      · rw [if_pos h2]
        exact ⟨_, _, rfl, by simp [hf, h2]⟩
      · rw [if_neg h2]
        exact ⟨_, _, rfl, by simp [hf, h1, h2]⟩

/-- Witness of C3: the FT v3 scenario script. -/
theorem DecodeSensibleTxo_true_iff_witness :
    1024 ≤ sampleFT3.length ∧
      ∃ ret txo', DecodeSensibleTxo lengthHash sampleFT3 txo0 = some (ret, txo') ∧
        (ret = true ↔
          (endsWithFlag sampleFT3 ∧ index sampleFT3 ((sampleFT3.length : Int) - 12) = some 1 ∧
            ftAnyProbe sampleFT3) ∨
          (endsWithFlag sampleFT3 ∧ index sampleFT3 ((sampleFT3.length : Int) - 12) = some 2 ∧
            uniqueValid sampleFT3) ∨
          (¬ endsWithFlag sampleFT3 ∧ nftIssueMarkers sampleFT3) ∨
          (¬ endsWithFlag sampleFT3 ∧ nftTransferMarkers sampleFT3)) :=
  ⟨by decide, DecodeSensibleTxo_true_iff lengthHash sampleFT3 txo0 (by decide)⟩

/-- Counterexample to C4 as stated: the byte at `len-13` is 1, the byte at `len-12` is 0,
and the dispatcher rejects although the FT decoder accepts. -/
theorem dispatch_offset13_counterexample :
    scriptType0.length = 1024 ∧ endsWithFlag scriptType0 ∧
      index scriptType0 ((scriptType0.length : Int) - 13) = some 1 ∧
      DecodeSensibleTxo lengthHash scriptType0 txo0 = some (false, txo0) ∧
      DecodeSensibleTxo lengthHash scriptType0 txo0 ≠
        decodeFT lengthHash scriptType0.length scriptType0 txo0 := by
  refine ⟨by decide, Or.inl ⟨_, rfl⟩, by decide, by decide, by decide⟩

/-- C4 (amended): on a script of at least 1024 bytes that ends with "sensible" or
"oraclesv" the dispatcher selects the sub-decoder from the byte at offset `len-12`
(the first byte of the 4-byte type field): 1 gives the result of the FT decoder, 2 the
result of the Unique decoder, any other value gives false with the record unchanged. -/
theorem dispatch_on_type_byte (H : List Byte → List Byte) (s : List Byte) (txo : TxoData)
    (h : 1024 ≤ s.length) (hf : endsWithFlag s) :
    (index s ((s.length : Int) - 12) = some 1 →
        DecodeSensibleTxo H s txo = decodeFT H s.length s txo) ∧
      (index s ((s.length : Int) - 12) = some 2 →
        DecodeSensibleTxo H s txo = decodeUnique H s.length s txo) ∧
      (index s ((s.length : Int) - 12) ≠ some 1 → index s ((s.length : Int) - 12) ≠ some 2 →
        DecodeSensibleTxo H s txo = some (false, txo)) := by
  have hf' := (hasSensibleFlag_iff s).mpr hf
  rw [DecodeSensibleTxo_eq H s txo h, if_pos hf', index_eq_some_iff s _ _ (by omega) (by omega),
    index_eq_some_iff s _ _ (by omega) (by omega)]
  refine ⟨fun h1 => by rw [if_pos h1], fun h2 => ?_, fun h1 h2 => ?_⟩
  · have h1 : ¬ idx s ((s.length : Int) - 12) = 1 := by rw [h2]; decide
    rw [if_neg h1, if_pos h2]
  · have h1' : ¬ idx s ((s.length : Int) - 12) = 1 := fun e =>
      h1 ((index_eq_some_iff s _ _ (by omega) (by omega)).mpr e)
    have h2' : ¬ idx s ((s.length : Int) - 12) = 2 := fun e =>
      h2 ((index_eq_some_iff s _ _ (by omega) (by omega)).mpr e)
    rw [if_neg h1', if_neg h2']

/-- Witness of C4 (amended): the FT v3 scenario script. -/
theorem dispatch_on_type_byte_witness :
    1024 ≤ sampleFT3.length ∧ endsWithFlag sampleFT3 ∧
      (index sampleFT3 ((sampleFT3.length : Int) - 12) = some 1 →
          DecodeSensibleTxo lengthHash sampleFT3 txo0 =
            decodeFT lengthHash sampleFT3.length sampleFT3 txo0) ∧
      (index sampleFT3 ((sampleFT3.length : Int) - 12) = some 2 →
          DecodeSensibleTxo lengthHash sampleFT3 txo0 =
            decodeUnique lengthHash sampleFT3.length sampleFT3 txo0) ∧
      (index sampleFT3 ((sampleFT3.length : Int) - 12) ≠ some 1 →
        index sampleFT3 ((sampleFT3.length : Int) - 12) ≠ some 2 →
          DecodeSensibleTxo lengthHash sampleFT3 txo0 = some (false, txo0)) :=
  ⟨by decide, Or.inl ⟨_, rfl⟩,
    dispatch_on_type_byte lengthHash sampleFT3 txo0 (by decide) (Or.inl ⟨_, rfl⟩)⟩

/-- C5: FT v5 round trip. A script `p ++ [0x6a, 0x4c, 148] ++ name ++ symbol ++
[is_genesis, decimal] ++ address ++ LE64(amount) ++ G ++ [1, t1, t2, t3] ++ flag` of
at least 1024 bytes, with a 76-byte genesis source `G`, decodes to true with code type
FT, the NUL-trimmed name and symbol, the decimal, address and amount of the encoder,
`code_hash = hash160(p)`, `genesis_id = hash160(G)` and `sensible_id` the last 36
bytes of `G`; the other fields of the record are unchanged. -/
theorem ft_v5_roundtrip (H : List Byte → List Byte) (p n sym : List Byte) (g d : Byte)
    (a : List Byte) (m : Nat) (G : List Byte) (t1 t2 t3 : Byte) (f : List Byte) (txo : TxoData)
    (hn : n.length = 20) (hs : sym.length = 10) (ha : a.length = 20) (hm : m < 2 ^ 64)
    (hG : G.length = 76) (hf : f = flagSensible ∨ f = flagOraclesv)
    (hl : 1024 ≤ (ftScript p 148 n sym g d a m G t1 t2 t3 f).length) :
    DecodeSensibleTxo H (ftScript p 148 n sym g d a m G t1 t2 t3 f) txo =
      some (true, { txo with
        CodeType := CodeType_FT
        Name := TrimRight n 0
        Symbol := TrimRight sym 0
        Decimal := d.toNat
        AddressPkh := a
        Amount := m
        CodeHash := H p
        GenesisId := H G
        SensibleId := G.drop 40 }) := by
  have hf8 := length_of_flag f hf
  have hflag : hasSensibleFlag (ftScript p 148 n sym g d a m G t1 t2 t3 f) = true :=
    (hasSensibleFlag_iff _).mpr (endsWithFlag_append _ f hf)
  obtain ⟨h12, hd, hsym, hname, ham, haddr, hp, hgen, hA, hB⟩ :=
    ftScript_fields p 148 n sym g d a m G t1 t2 t3 f 76 hn hs ha (by rw [hG]; rfl) hf8
  have hsid := ftScript_sensibleId p 148 n sym g d a m G t1 t2 t3 f hG hf8
  have e1 : ((76 : Int) + 74) = 150 := by norm_num
  have e2 : ((76 : Int) + 73) = 149 := by norm_num
  have e3 : ((76 : Int) + 75) = 151 := by norm_num
  rw [e1] at hA
  rw [e2] at hB
  rw [e3] at hp
  have hsel : ftSel (ftScript p 148 n sym g d a m G t1 t2 t3 f) = some (76, 36, 151, true) := by
    simp only [ftSel]
    rw [if_pos ⟨hA, hB⟩]
  rw [DecodeSensibleTxo_eq H _ txo hl, if_pos hflag, if_pos h12, decodeFT_eq H _ txo hl, hsel]
  simp only [ftRecord, hd, hsym, hname, ham, haddr, hp, hgen, hsid, if_true,
    leNat_leBytes_of_lt 8 m (by simpa using hm)]

/-- Witness of C5: 873 zero bytes of code, name "TOKEN", symbol "TKN", decimal 8,
address 20 x 0x11, amount 100000000, genesis source 76 x 0x22, flag "sensible". -/
theorem ft_v5_roundtrip_witness :
    nameTOKEN.length = 20 ∧ symbolTKN.length = 10 ∧ (List.replicate 20 (0x11 : Byte)).length = 20 ∧
      100000000 < 2 ^ 64 ∧ (List.replicate 76 (0x22 : Byte)).length = 76 ∧
      1024 ≤ (ftScript (List.replicate 873 0) 148 nameTOKEN symbolTKN 0 8 (List.replicate 20 0x11)
        100000000 (List.replicate 76 0x22) 0 0 0 flagSensible).length ∧
      DecodeSensibleTxo lengthHash (ftScript (List.replicate 873 0) 148 nameTOKEN symbolTKN 0 8
        (List.replicate 20 0x11) 100000000 (List.replicate 76 0x22) 0 0 0 flagSensible) txo0 =
        some (true, { txo0 with
          CodeType := CodeType_FT
          Name := TrimRight nameTOKEN 0
          Symbol := TrimRight symbolTKN 0
          Decimal := (8 : Byte).toNat
          AddressPkh := List.replicate 20 0x11
          Amount := 100000000
          CodeHash := lengthHash (List.replicate 873 0)
          GenesisId := lengthHash (List.replicate 76 0x22)
          SensibleId := (List.replicate 76 (0x22 : Byte)).drop 40 }) :=
  ⟨by decide, by decide, by decide, by decide, by decide, by decide,
    ft_v5_roundtrip lengthHash (List.replicate 873 0) nameTOKEN symbolTKN 0 8
      (List.replicate 20 0x11) 100000000 (List.replicate 76 0x22) 0 0 0 flagSensible txo0
      (by decide) (by decide) (by decide) (by decide) (by decide) (Or.inl rfl) (by decide)⟩

/-- Counterexample to C6 as stated. The FT v3 layout with the bytes `0x4c, 148` at
`len-150`, `len-149` (inside the code part) satisfies every hypothesis of the unamended
round-trip statement, yet it is decoded as v5: the name is empty, the decimal 0 and the
sensible id 36 bytes long. -/
theorem ft_v3_planted_counterexample :
    nameTOKEN.length = 20 ∧ symbolTKN.length = 10 ∧ 1024 ≤ sampleFT3Planted.length ∧
      TrimRight nameTOKEN 0 = [0x54, 0x4f, 0x4b, 0x45, 0x4e] ∧
      (DecodeSensibleTxo lengthHash sampleFT3Planted txo0).map
        (fun r => (r.1, r.2.Name, r.2.Decimal, r.2.SensibleId.length)) =
        some (true, [], 0, 36) := by
  refine ⟨by decide, by decide, by decide, by decide, by decide⟩

/-- C6 (amended): FT v3 round trip. A script `p ++ [0x6a, 0x4c, 92] ++ name ++ symbol ++
[is_genesis, decimal] ++ address ++ LE64(amount) ++ G ++ [1, t1, t2, t3] ++ flag` of
at least 1024 bytes, with a 20-byte genesis id `G`, on which neither the v5 probe
(`0x4c, 148` at `len-150`) nor the v4 probe (`0x4c, 108` at `len-110`) matches,
decodes to true with code type FT, the NUL-trimmed name and symbol, the decimal,
address and amount of the encoder, `code_hash = hash160(p)` and
`genesis_id = sensible_id = G`; the other fields of the record are unchanged. -/
theorem ft_v3_roundtrip (H : List Byte → List Byte) (p n sym : List Byte) (g d : Byte)
    (a : List Byte) (m : Nat) (G : List Byte) (t1 t2 t3 : Byte) (f : List Byte) (txo : TxoData)
    (hn : n.length = 20) (hs : sym.length = 10) (ha : a.length = 20) (hm : m < 2 ^ 64)
    (hG : G.length = 20) (hf : f = flagSensible ∨ f = flagOraclesv)
    (hl : 1024 ≤ (ftScript p 92 n sym g d a m G t1 t2 t3 f).length)
    (h5 : ¬ ftProbe (ftScript p 92 n sym g d a m G t1 t2 t3 f) 150 148)
    (h4 : ¬ ftProbe (ftScript p 92 n sym g d a m G t1 t2 t3 f) 110 108) :
    DecodeSensibleTxo H (ftScript p 92 n sym g d a m G t1 t2 t3 f) txo =
      some (true, { txo with
        CodeType := CodeType_FT
        Name := TrimRight n 0
        Symbol := TrimRight sym 0
        Decimal := d.toNat
        AddressPkh := a
        Amount := m
        CodeHash := H p
        GenesisId := G
        SensibleId := G }) := by
  have hf8 := length_of_flag f hf
  have hflag : hasSensibleFlag (ftScript p 92 n sym g d a m G t1 t2 t3 f) = true :=
    (hasSensibleFlag_iff _).mpr (endsWithFlag_append _ f hf)
  obtain ⟨h12, hd, hsym, hname, ham, haddr, hp, hgen, hA, hB⟩ :=
    ftScript_fields p 92 n sym g d a m G t1 t2 t3 f 20 hn hs ha (by rw [hG]; rfl) hf8
  have e1 : ((20 : Int) + 74) = 94 := by norm_num
  have e2 : ((20 : Int) + 73) = 93 := by norm_num
  have e3 : ((20 : Int) + 75) = 95 := by norm_num
  rw [e1] at hA
  rw [e2] at hB
  rw [e3] at hp
  rw [ftProbe_iff _ 150 149 _ hl (by omega) (by omega)] at h5
  rw [ftProbe_iff _ 110 109 _ hl (by omega) (by omega)] at h4
  have hsel : ftSel (ftScript p 92 n sym g d a m G t1 t2 t3 f) = some (20, 0, 95, false) := by
    simp only [ftSel]
    rw [if_neg h5, if_neg h4, if_pos ⟨hA, hB⟩]
  rw [DecodeSensibleTxo_eq H _ txo hl, if_pos hflag, if_pos h12, decodeFT_eq H _ txo hl, hsel]
  simp only [ftRecord, hd, hsym, hname, ham, haddr, hp, hgen, Bool.false_eq_true, if_false,
    leNat_leBytes_of_lt 8 m (by simpa using hm)]

/-- Witness of C6 (amended): the FT v3 scenario of the specification. -/
theorem ft_v3_roundtrip_witness :
    nameTOKEN.length = 20 ∧ symbolTKN.length = 10 ∧ (List.replicate 20 (0x11 : Byte)).length = 20 ∧
      100000000 < 2 ^ 64 ∧ (List.replicate 20 (0x22 : Byte)).length = 20 ∧
      1024 ≤ (ftScript (List.replicate 929 0) 92 nameTOKEN symbolTKN 0 8 (List.replicate 20 0x11)
        100000000 (List.replicate 20 0x22) 0 0 0 flagSensible).length ∧
      ¬ ftProbe (ftScript (List.replicate 929 0) 92 nameTOKEN symbolTKN 0 8
        (List.replicate 20 0x11) 100000000 (List.replicate 20 0x22) 0 0 0 flagSensible) 150 148 ∧
      ¬ ftProbe (ftScript (List.replicate 929 0) 92 nameTOKEN symbolTKN 0 8
        (List.replicate 20 0x11) 100000000 (List.replicate 20 0x22) 0 0 0 flagSensible) 110 108 ∧
      DecodeSensibleTxo lengthHash (ftScript (List.replicate 929 0) 92 nameTOKEN symbolTKN 0 8
        (List.replicate 20 0x11) 100000000 (List.replicate 20 0x22) 0 0 0 flagSensible) txo0 =
        some (true, { txo0 with
          CodeType := CodeType_FT
          Name := TrimRight nameTOKEN 0
          Symbol := TrimRight symbolTKN 0
          Decimal := (8 : Byte).toNat
          AddressPkh := List.replicate 20 0x11
          Amount := 100000000
          CodeHash := lengthHash (List.replicate 929 0)
          GenesisId := List.replicate 20 0x22
          SensibleId := List.replicate 20 0x22 }) :=
  ⟨by decide, by decide, by decide, by decide, by decide, by decide,
    by unfold ftProbe; decide, by unfold ftProbe; decide,
    ft_v3_roundtrip lengthHash (List.replicate 929 0) nameTOKEN symbolTKN 0 8
      (List.replicate 20 0x11) 100000000 (List.replicate 20 0x22) 0 0 0 flagSensible txo0
      (by decide) (by decide) (by decide) (by decide) (by decide) (Or.inl rfl) (by decide)
      (by unfold ftProbe; decide) (by unfold ftProbe; decide)⟩

/-- Counterexample to C7 as stated. An NFT-transfer script that satisfies every hypothesis
of the unamended round-trip statement and also carries the NFT-issue markers (byte 3 of
the token index is 37, the genesis id holds `0x6a, 40` at offsets 22, 23): the issue
decoder runs, the token index is read from the meta tx id bytes and `meta_tx_id` is not
written. -/
theorem nft_transfer_planted_counterexample :
    genesisPlanted.length = 40 ∧ 620756992 < 2 ^ 64 ∧ 1024 ≤ sampleTransferPlanted.length ∧
      (DecodeSensibleTxo lengthHash sampleTransferPlanted txo0).map
        (fun r => (r.1, r.2.TokenIdx, r.2.MetaTxId, decide (r.2.GenesisId = genesisPlanted))) =
        some (true, 8608480567731124087, [], false) := by
  refine ⟨by decide, by decide, by decide, by decide⟩

/-- C7 (amended): NFT-transfer round trip. A script `p ++ [0x6a, 0x28] ++ G ++ [0x3d] ++
address ++ LE64(token_idx) ++ meta_tx_id ++ [0x01]` of at least 1024 bytes that does
not also carry the NFT-issue markers (`script[len-38] = 37`, `script[len-79] = 40`,
`script[len-80] = 0x6a`, which the dispatcher tests first) decodes to true with code
type NFT, `genesis_id = G`, the address, token index and meta tx id of the encoder and
`code_hash = hash160(p)`; the other fields of the record are unchanged. -/
theorem nft_transfer_roundtrip (H : List Byte → List Byte) (p G a : List Byte) (t : Nat)
    (M : List Byte) (txo : TxoData) (hG : G.length = 40) (ha : a.length = 20) (ht : t < 2 ^ 64)
    (hM : M.length = 32) (hl : 1024 ≤ (nftTransferScript p G a t M).length)
    (hni : ¬ nftIssueMarkers (nftTransferScript p G a t M)) :
    DecodeSensibleTxo H (nftTransferScript p G a t M) txo =
      some (true, { txo with
        CodeType := CodeType_NFT
        GenesisId := G
        AddressPkh := a
        TokenIdx := t
        MetaTxId := M
        CodeHash := H p }) := by
  have hflag : ¬ hasSensibleFlag (nftTransferScript p G a t M) = true := by
    rw [hasSensibleFlag_iff]
    exact not_endsWithFlag_of_last _ 0x01 (by decide) (by decide)
  obtain ⟨h1, h62, h103, h104, hp, hgen, hmeta, htok, haddr⟩ :=
    nftTransferScript_fields p G a t M hG ha hM
  rw [nftIssueMarkers_iff _ hl] at hni
  have htr : nftTransferMatch (nftTransferScript p G a t M) := ⟨h1, h62, h103, h104⟩
  rw [DecodeSensibleTxo_eq H _ txo hl, if_neg hflag, if_neg hni, if_pos htr,
    decodeNFTTransfer_eq H _ txo hl]
  simp only [nftTransferRecord, hp, hgen, hmeta, htok, haddr,
    leNat_leBytes_of_lt 8 t (by simpa using ht)]

/-- Witness of C7 (amended): the NFT-transfer scenario of the specification. -/
theorem nft_transfer_roundtrip_witness :
    (List.replicate 40 (0x55 : Byte)).length = 40 ∧ (List.replicate 20 (0x66 : Byte)).length = 20 ∧
      2 < 2 ^ 64 ∧ (List.replicate 32 (0x77 : Byte)).length = 32 ∧
      1024 ≤ (nftTransferScript (List.replicate 920 0) (List.replicate 40 0x55)
        (List.replicate 20 0x66) 2 (List.replicate 32 0x77)).length ∧
      ¬ nftIssueMarkers (nftTransferScript (List.replicate 920 0) (List.replicate 40 0x55)
        (List.replicate 20 0x66) 2 (List.replicate 32 0x77)) ∧
      DecodeSensibleTxo lengthHash (nftTransferScript (List.replicate 920 0)
        (List.replicate 40 0x55) (List.replicate 20 0x66) 2 (List.replicate 32 0x77)) txo0 =
        some (true, { txo0 with
          CodeType := CodeType_NFT
          GenesisId := List.replicate 40 0x55
          AddressPkh := List.replicate 20 0x66
          TokenIdx := 2
          MetaTxId := List.replicate 32 0x77
          CodeHash := lengthHash (List.replicate 920 0) }) :=
  ⟨by decide, by decide, by decide, by decide, by decide,
    by unfold nftIssueMarkers; decide,
    nft_transfer_roundtrip lengthHash (List.replicate 920 0) (List.replicate 40 0x55)
      (List.replicate 20 0x66) 2 (List.replicate 32 0x77) txo0 (by decide) (by decide) (by decide)
      (by decide) (by decide) (by unfold nftIssueMarkers; decide)⟩

/-- Counterexample to C8 as stated. The NFT-issue scenario in the field order of spec
section 6 (`LE64(7)`, then 8 padding bytes, then the flag byte) decodes to true with
token index 0, not 7: the decoder reads the token index from the 8 bytes next to the
flag byte. -/
theorem nft_issue_section6_counterexample :
    (List.replicate 40 (0x33 : Byte)).length = 40 ∧ (List.replicate 20 (0x44 : Byte)).length = 20 ∧
      7 < 2 ^ 64 ∧ (List.replicate 8 (0 : Byte)).length = 8 ∧
      1024 ≤ sampleIssueSection6.length ∧
      (DecodeSensibleTxo lengthHash sampleIssueSection6 txo0).map
        (fun r => (r.1, r.2.TokenIdx)) = some (true, 0) := by
  refine ⟨by decide, by decide, by decide, by decide, by decide, by decide⟩

/-- C8 (amended): NFT-issue round trip. A script `p ++ [0x6a, 0x28] ++ G ++ [0x25] ++
address ++ unused(8) ++ LE64(token_idx) ++ [0x00]` of at least 1024 bytes (the token
index occupies the 8 bytes next to the flag byte, after the 8 unused bytes) decodes
to true with code type NFT, `genesis_id = G`, the address and token index of the
encoder and `code_hash = hash160(p)`; the other fields, `meta_tx_id` included, are
unchanged. -/
theorem nft_issue_roundtrip (H : List Byte → List Byte) (p G a : List Byte) (t : Nat)
    (u : List Byte) (txo : TxoData) (hG : G.length = 40) (ha : a.length = 20) (ht : t < 2 ^ 64)
    (hu : u.length = 8) (hl : 1024 ≤ (nftIssueScript p G a u (leBytes 8 t)).length) :
    DecodeSensibleTxo H (nftIssueScript p G a u (leBytes 8 t)) txo =
      some (true, { txo with
        CodeType := CodeType_NFT
        GenesisId := G
        AddressPkh := a
        TokenIdx := t
        CodeHash := H p }) := by
  have hflag : ¬ hasSensibleFlag (nftIssueScript p G a u (leBytes 8 t)) = true := by
    rw [hasSensibleFlag_iff]
    exact not_endsWithFlag_of_last _ 0x00 (by decide) (by decide)
  obtain ⟨h1, h38, h79, h80, hp, hgen, htok, haddr⟩ :=
    nftIssueScript_fields p G a u (leBytes 8 t) hG ha hu (length_leBytes 8 t)
  have his : nftIssueMatch (nftIssueScript p G a u (leBytes 8 t)) :=
    ⟨by rw [h1]; decide, h38, h79, h80⟩
  rw [DecodeSensibleTxo_eq H _ txo hl, if_neg hflag, if_pos his, decodeNFTIssue_eq H _ txo hl]
  simp only [nftIssueRecord, hp, hgen, htok, haddr, leNat_leBytes_of_lt 8 t (by simpa using ht)]

/-- Witness of C8 (amended): the NFT-issue scenario with the token index next to the
flag byte. -/
theorem nft_issue_roundtrip_witness :
    (List.replicate 40 (0x33 : Byte)).length = 40 ∧ (List.replicate 20 (0x44 : Byte)).length = 20 ∧
      7 < 2 ^ 64 ∧ (List.replicate 8 (0 : Byte)).length = 8 ∧
      1024 ≤ (nftIssueScript (List.replicate 944 0) (List.replicate 40 0x33)
        (List.replicate 20 0x44) (List.replicate 8 0) (leBytes 8 7)).length ∧
      DecodeSensibleTxo lengthHash (nftIssueScript (List.replicate 944 0) (List.replicate 40 0x33)
        (List.replicate 20 0x44) (List.replicate 8 0) (leBytes 8 7)) txo0 =
        some (true, { txo0 with
          CodeType := CodeType_NFT
          GenesisId := List.replicate 40 0x33
          AddressPkh := List.replicate 20 0x44
          TokenIdx := 7
          CodeHash := lengthHash (List.replicate 944 0) }) :=
  ⟨by decide, by decide, by decide, by decide, by decide,
    nft_issue_roundtrip lengthHash (List.replicate 944 0) (List.replicate 40 0x33)
      (List.replicate 20 0x44) 7 (List.replicate 8 0) txo0 (by decide) (by decide) (by decide)
      (by decide) (by decide)⟩

/-- Counterexample to C9 as stated. The Unique scenario in the layout of spec section 6
(17-byte reserved region whose bytes 12..16 hold the custom data size) satisfies every
hypothesis of the unamended round-trip statement and is rejected: `len - dataLen` falls
12 bytes after the `OP_RETURN`, on a byte of the reserved region. -/
theorem unique_section6_counterexample :
    (List.replicate 12 (0 : Byte) ++ leBytes 4 0 ++ [0]).length = 17 ∧
      ((List.replicate 12 (0 : Byte) ++ leBytes 4 0 ++ [0]).drop 12).take 4 = leBytes 4 0 ∧
      (List.replicate 36 (0x99 : Byte)).length = 36 ∧
      (([0] : List Byte).length : Int) = getVarIntLen 0 ∧
      1024 ≤ sampleUniqueSection6.length ∧
      DecodeSensibleTxo lengthHash sampleUniqueSection6 txo0 = some (false, txo0) := by
  refine ⟨by decide, by decide, by decide, by decide, by decide, by decide⟩

/-- C9 (amended): Unique round trip. A script `p ++ [0x6a, op] ++ V ++ C ++ LE32(c) ++
[r] ++ G ++ [2, t1, t2, t3] ++ flag` of at least 1024 bytes with a non-empty code part
`p`, `V` of the varint length of `c`, `c` bytes of custom data `C`, one reserved byte
`r` and a 36-byte genesis id `G` (the region between the custom data and the genesis
id is 5 bytes: the decoder's 17 also counts the 12 bytes of type and flag) decodes to
true with code type UNIQUE, `genesis_id = G`, `address_pkh` 20 zero bytes and
`code_hash = hash160(p)`; the other fields of the record are unchanged. -/
theorem unique_roundtrip (H : List Byte → List Byte) (p : List Byte) (op : Byte)
    (V C : List Byte) (c : Nat) (r : Byte) (G : List Byte) (t1 t2 t3 : Byte) (f : List Byte)
    (txo : TxoData) (hp : p ≠ []) (hc : c < 2 ^ 32) (hV : (V.length : Int) = getVarIntLen c)
    (hC : C.length = c) (hG : G.length = 36) (hf : f = flagSensible ∨ f = flagOraclesv)
    (hl : 1024 ≤ (uniqueScript p op V C (leBytes 4 c ++ [r]) G t1 t2 t3 f).length) :
    DecodeSensibleTxo H (uniqueScript p op V C (leBytes 4 c ++ [r]) G t1 t2 t3 f) txo =
      some (true, { txo with
        CodeType := CodeType_UNIQUE
        GenesisId := G
        AddressPkh := List.replicate 20 0
        CodeHash := H p }) := by
  have hf8 := length_of_flag f hf
  have hflag : hasSensibleFlag (uniqueScript p op V C (leBytes 4 c ++ [r]) G t1 t2 t3 f) = true :=
    (hasSensibleFlag_iff _).mpr (endsWithFlag_append _ f hf)
  obtain ⟨h12, hsz, hgen, hpre, hop⟩ := uniqueScript_fields p op V C c r G t1 t2 t3 f hG hf8
  have hpl : 0 < p.length := List.length_pos.mpr hp
  have hN : ((uniqueScript p op V C (leBytes 4 c ++ [r]) G t1 t2 t3 f).length : Int)
      = p.length + 2 + V.length + C.length + 5 + 36 + 12 := by
    rw [length_uniqueScript, hG, hf8]
    simp only [List.length_append, List.length_cons, List.length_nil, length_leBytes]
    push_cast
    ring
  have hsize : uniqueSize (uniqueScript p op V C (leBytes 4 c ++ [r]) G t1 t2 t3 f) = c := by
    unfold uniqueSize
    rw [hsz, leNat_leBytes_of_lt 4 c (by simpa using hc)]
  have hD : uniqueDataLen (uniqueScript p op V C (leBytes 4 c ++ [r]) G t1 t2 t3 f)
      = 1 + 1 + (V.length : Int) + (C.length : Int) + 17 + 36 := by
    unfold uniqueDataLen
    rw [hsize, ← hV, hC]
  have hoff : ((uniqueScript p op V C (leBytes 4 c ++ [r]) G t1 t2 t3 f).length : Int)
      - uniqueDataLen (uniqueScript p op V C (leBytes 4 c ++ [r]) G t1 t2 t3 f) = p.length := by
    rw [hD, hN]; ring
  have h1 : ¬ idx (uniqueScript p op V C (leBytes 4 c ++ [r]) G t1 t2 t3 f)
      (((uniqueScript p op V C (leBytes 4 c ++ [r]) G t1 t2 t3 f).length : Int) - 12) = 1 := by
    rw [h12]; decide
  have hok : ¬ (uniqueDataLen (uniqueScript p op V C (leBytes 4 c ++ [r]) G t1 t2 t3 f) ≥
        ((uniqueScript p op V C (leBytes 4 c ++ [r]) G t1 t2 t3 f).length : Int) ∨
      idx (uniqueScript p op V C (leBytes 4 c ++ [r]) G t1 t2 t3 f)
        (((uniqueScript p op V C (leBytes 4 c ++ [r]) G t1 t2 t3 f).length : Int) -
          uniqueDataLen (uniqueScript p op V C (leBytes 4 c ++ [r]) G t1 t2 t3 f)) ≠ OP_RETURN) := by
    rw [hoff]
    rintro (h | h)
    · omega
    · exact h hop
  rw [DecodeSensibleTxo_eq H _ txo hl, if_pos hflag, if_neg h1, if_pos h12,
    decodeUnique_eq H _ txo hl, if_neg hok]
  simp only [uniqueRecord, hoff, hpre, hgen]
  rfl

/-- Witness of C9 (amended): flag "oraclesv", custom data size 0, varint length 1. -/
theorem unique_roundtrip_witness :
    List.replicate 968 (0 : Byte) ≠ [] ∧ 0 < 2 ^ 32 ∧
      (([0] : List Byte).length : Int) = getVarIntLen ((0 : Nat) : Int) ∧
      ([] : List Byte).length = 0 ∧ (List.replicate 36 (0x99 : Byte)).length = 36 ∧
      1024 ≤ (uniqueScript (List.replicate 968 0) 0 [0] [] (leBytes 4 0 ++ [0])
        (List.replicate 36 0x99) 0 0 0 flagOraclesv).length ∧
      DecodeSensibleTxo lengthHash (uniqueScript (List.replicate 968 0) 0 [0] []
        (leBytes 4 0 ++ [0]) (List.replicate 36 0x99) 0 0 0 flagOraclesv) txo0 =
        some (true, { txo0 with
          CodeType := CodeType_UNIQUE
          GenesisId := List.replicate 36 0x99
          AddressPkh := List.replicate 20 0
          CodeHash := lengthHash (List.replicate 968 0) }) :=
  ⟨by decide, by decide, by decide, by decide, by decide, by decide,
    unique_roundtrip lengthHash (List.replicate 968 0) 0 [0] [] 0 0 (List.replicate 36 0x99)
      0 0 0 flagOraclesv txo0 (by decide) (by decide) (by decide) (by decide) (by decide)
      (Or.inr rfl) (by decide)⟩

/-- C10: on a script of at least 1024 bytes `decodeUnique` reads the little-endian u32
`c` at `script[len-53 .. len-49]`, forms `D = 1 + 1 + varint_len(c) + c + 17 + 36`
(`varint_len(c)` is 1 for `c < 0xfd`, 3 for `c <= 0xffff`, 5 otherwise) and returns
false exactly when `D >= len` or `script[len-D]` is not `OP_RETURN`; when it returns
true the record has `code_type = UNIQUE`, `code_hash = hash160(script[0 .. len-D])`,
`genesis_id = script[len-48 .. len-12]` (36 bytes) and `address_pkh` 20 zero bytes. -/
theorem decodeUnique_spec (H : List Byte → List Byte) (s : List Byte) (txo : TxoData)
    (h : 1024 ≤ s.length) :
    ∃ (c : Nat) (ret : Bool) (txo' : TxoData),
      (slice s ((s.length : Int) - 53) ((s.length : Int) - 49)).bind Uint32 = some c ∧
      c < 2 ^ 32 ∧
      getVarIntLen (c : Int) = (if c < 0xfd then 1 else if c ≤ 0xffff then 3 else 5) ∧
      decodeUnique H s.length s txo = some (ret, txo') ∧
      (ret = false ↔
        (uniqueTotal c ≥ (s.length : Int) ∨
          index s ((s.length : Int) - uniqueTotal c) ≠ some OP_RETURN)) ∧
      (ret = true →
        ∃ pre gen : List Byte,
          slice s 0 ((s.length : Int) - uniqueTotal c) = some pre ∧
          slice s ((s.length : Int) - 48) ((s.length : Int) - 12) = some gen ∧
          gen.length = 36 ∧
          txo' = { txo with
            CodeType := CodeType_UNIQUE
            CodeHash := H pre
            GenesisId := gen
            AddressPkh := List.replicate 20 0 }) := by
  have hb := uniqueDataLen_bounds s h
  have hD : uniqueTotal (uniqueSize s) = uniqueDataLen s := rfl
  have hc := uniqueSize_lt s h
  by_cases hv : uniqueDataLen s ≥ s.length ∨ idx s (s.length - uniqueDataLen s) ≠ OP_RETURN
  · refine ⟨uniqueSize s, false, txo, uniqueSize_eq s h, hc, getVarIntLen_u32 _ hc, ?_, ?_, ?_⟩
    · rw [decodeUnique_eq H s txo h, if_pos hv]
    · rw [hD]
      refine ⟨fun _ => ?_, fun _ => rfl⟩
      rcases hv with hv | hv
      · exact Or.inl hv
      · by_cases hge : uniqueDataLen s ≥ s.length
        · exact Or.inl hge
        · exact Or.inr (fun e => hv ((index_eq_some_iff s _ _ (by omega) (by omega)).mp e))
    · intro e; cases e
  · have h1 : uniqueDataLen s < s.length := by
      by_contra hc'; exact hv (Or.inl (by omega))
    have h2 : idx s (s.length - uniqueDataLen s) = OP_RETURN := by
      by_contra hc'; exact hv (Or.inr hc')
    refine ⟨uniqueSize s, true, uniqueRecord H s txo, uniqueSize_eq s h, hc,
      getVarIntLen_u32 _ hc, ?_, ?_, ?_⟩
    · rw [decodeUnique_eq H s txo h, if_neg hv]
    · rw [hD]
      refine ⟨fun e => (by cases e), fun e => ?_⟩
      rcases e with e | e
      · omega
      · exact absurd ((index_eq_some_iff s _ _ (by omega) (by omega)).mpr h2) e
    · intro _
      refine ⟨sub s 0 (s.length - uniqueDataLen s), sub s (s.length - 48) (s.length - 12), ?_,
        slice_eq_some s _ _ (by omega) (by omega) (by omega), ?_, rfl⟩
      · rw [hD]; exact slice_eq_some s _ _ (by omega) (by omega) (by omega)
      · rw [length_sub s _ _ (by omega) (by omega) (by omega)]; omega

/-- Witness of C10: the Unique scenario script in the layout of spec section 6. -/
theorem decodeUnique_spec_witness :
    1024 ≤ sampleUniqueSection6.length ∧
    ∃ (c : Nat) (ret : Bool) (txo' : TxoData),
      (slice sampleUniqueSection6 ((sampleUniqueSection6.length : Int) - 53)
        ((sampleUniqueSection6.length : Int) - 49)).bind Uint32 = some c ∧
      c < 2 ^ 32 ∧
      getVarIntLen (c : Int) = (if c < 0xfd then 1 else if c ≤ 0xffff then 3 else 5) ∧
      decodeUnique lengthHash sampleUniqueSection6.length sampleUniqueSection6 txo0
        = some (ret, txo') ∧
      (ret = false ↔
        (uniqueTotal c ≥ (sampleUniqueSection6.length : Int) ∨
          index sampleUniqueSection6 ((sampleUniqueSection6.length : Int) - uniqueTotal c)
            ≠ some OP_RETURN)) ∧
      (ret = true →
        ∃ pre gen : List Byte,
          slice sampleUniqueSection6 0 ((sampleUniqueSection6.length : Int) - uniqueTotal c)
            = some pre ∧
          slice sampleUniqueSection6 ((sampleUniqueSection6.length : Int) - 48)
            ((sampleUniqueSection6.length : Int) - 12) = some gen ∧
          gen.length = 36 ∧
          txo' = { txo0 with
            CodeType := CodeType_UNIQUE
            CodeHash := lengthHash pre
            GenesisId := gen
            AddressPkh := List.replicate 20 0 }) :=
  ⟨by decide, decodeUnique_spec lengthHash sampleUniqueSection6 txo0 (by decide)⟩

theorem idx_last_of_endsWithFlag (s : List Byte) (h : endsWithFlag s) :
    idx s ((s.length : Int) - 1) = 0x65 ∨ idx s ((s.length : Int) - 1) = 0x76 := by
  rcases h with ⟨q, hq⟩ | ⟨q, hq⟩
  · left
    refine idx_of_eq s (q ++ [0x73, 0x65, 0x6e, 0x73, 0x69, 0x62, 0x6c]) 0x65 [] _ ?_ ?_
    · rw [← hq]; simp [flagSensible]
    · rw [← hq]; simp [flagSensible]; omega
  · right
    refine idx_of_eq s (q ++ [0x6f, 0x72, 0x61, 0x63, 0x6c, 0x65, 0x73]) 0x76 [] _ ?_ ?_
    · rw [← hq]; simp [flagOraclesv]
    · rw [← hq]; simp [flagOraclesv]; omega

theorem not_endsWithFlag_of_last_lt (s : List Byte) (h : idx s ((s.length : Int) - 1) < 2) :
    ¬ endsWithFlag s := by
  intro hf
  rcases idx_last_of_endsWithFlag s hf with e | e <;> rw [e] at h <;> exact absurd h (by decide)

theorem not_hasSensibleFlag_of_issue (s : List Byte) (h : nftIssueMatch s) :
    ¬ hasSensibleFlag s = true := by
  rw [hasSensibleFlag_iff]
  exact not_endsWithFlag_of_last_lt s h.1

/-- C11: a script of at least 1024 bytes that carries the NFT-issue markers
(`script[len-1] < 2`, `script[len-38] = 37`, `script[len-79] = 40`,
`script[len-80] = OP_RETURN`) decodes to true with code type NFT,
`code_hash = hash160(script[0 .. len-80])`, `genesis_id = script[len-78 .. len-38]`
(40 bytes), `address_pkh = script[len-37 .. len-17]` (20 bytes) and `token_idx` the
little-endian u64 of `script[len-9 .. len-1]`; the other fields are unchanged. -/
theorem nft_issue_decode (H : List Byte → List Byte) (s : List Byte) (txo : TxoData)
    (h : 1024 ≤ s.length) (hm : nftIssueMarkers s) :
    ∃ (pre gen addr : List Byte) (tok : Nat),
      slice s 0 ((s.length : Int) - 80) = some pre ∧
      slice s ((s.length : Int) - 78) ((s.length : Int) - 38) = some gen ∧ gen.length = 40 ∧
      slice s ((s.length : Int) - 37) ((s.length : Int) - 17) = some addr ∧ addr.length = 20 ∧
      (slice s ((s.length : Int) - 9) ((s.length : Int) - 1)).bind Uint64 = some tok ∧
      DecodeSensibleTxo H s txo =
        some (true, { txo with
          CodeType := CodeType_NFT
          CodeHash := H pre
          GenesisId := gen
          AddressPkh := addr
          TokenIdx := tok }) := by
  have hm' := (nftIssueMarkers_iff s h).mp hm
  refine ⟨sub s 0 (s.length - 80), sub s (s.length - 78) (s.length - 38),
    sub s (s.length - 37) (s.length - 17), leNat (sub s (s.length - 9) (s.length - 1)),
    slice_eq_some s _ _ (by omega) (by omega) (by omega),
    slice_eq_some s _ _ (by omega) (by omega) (by omega), ?_,
    slice_eq_some s _ _ (by omega) (by omega) (by omega), ?_, ?_, ?_⟩
  · rw [length_sub s _ _ (by omega) (by omega) (by omega)]; omega
  · rw [length_sub s _ _ (by omega) (by omega) (by omega)]; omega
  · rw [slice_eq_some s _ _ (by omega) (by omega) (by omega), Option.some_bind,
      Uint64_sub s _ _ (by omega) (by omega) (by omega)]
  · rw [DecodeSensibleTxo_eq H s txo h, if_neg (not_hasSensibleFlag_of_issue s hm'), if_pos hm',
      decodeNFTIssue_eq H s txo h]
    rfl

/-- Witness of C11: the NFT-issue scenario script (genesis 40 x 0x33, address 20 x 0x44). -/
theorem nft_issue_decode_witness :
    1024 ≤ sampleIssueSection6.length ∧ nftIssueMarkers sampleIssueSection6 ∧
    ∃ (pre gen addr : List Byte) (tok : Nat),
      slice sampleIssueSection6 0 ((sampleIssueSection6.length : Int) - 80) = some pre ∧
      slice sampleIssueSection6 ((sampleIssueSection6.length : Int) - 78)
        ((sampleIssueSection6.length : Int) - 38) = some gen ∧ gen.length = 40 ∧
      slice sampleIssueSection6 ((sampleIssueSection6.length : Int) - 37)
        ((sampleIssueSection6.length : Int) - 17) = some addr ∧ addr.length = 20 ∧
      (slice sampleIssueSection6 ((sampleIssueSection6.length : Int) - 9)
        ((sampleIssueSection6.length : Int) - 1)).bind Uint64 = some tok ∧
      DecodeSensibleTxo lengthHash sampleIssueSection6 txo0 =
        some (true, { txo0 with
          CodeType := CodeType_NFT
          CodeHash := lengthHash pre
          GenesisId := gen
          AddressPkh := addr
          TokenIdx := tok }) :=
  ⟨by decide, by unfold nftIssueMarkers; decide,
    nft_issue_decode lengthHash sampleIssueSection6 txo0 (by decide)
      (by unfold nftIssueMarkers; decide)⟩

theorem byte_lt_two (b : Byte) (h : b < 2) : b = 0 ∨ b = 1 := by
  have h' : b.toNat < 2 := by
    have := UInt8.lt_def.mp h
    simpa [BitVec.lt_def] using this
  have hb : b.toNat = 0 ∨ b.toNat = 1 := by omega
  rcases hb with e | e
  · left
    apply UInt8.ext
    simpa using e
  · right
    apply UInt8.ext
    simpa using e

/-- Counterexample to C12 as stated: a 1024-byte script with `script[len-1] = 1` that
satisfies both the NFT-issue pattern and the NFT-transfer pattern; the dispatcher runs
the NFT-issue decoder on it, not the NFT-transfer decoder. -/
theorem nft_patterns_overlap_counterexample :
    1024 ≤ sampleTransferPlanted.length ∧ nftIssueMarkers sampleTransferPlanted ∧
      nftTransferMarkers sampleTransferPlanted ∧
      index sampleTransferPlanted ((sampleTransferPlanted.length : Int) - 1) = some 1 ∧
      DecodeSensibleTxo lengthHash sampleTransferPlanted txo0 =
        decodeNFTIssue lengthHash sampleTransferPlanted.length sampleTransferPlanted txo0 ∧
      DecodeSensibleTxo lengthHash sampleTransferPlanted txo0 ≠
        decodeNFTTransfer lengthHash sampleTransferPlanted.length sampleTransferPlanted txo0 := by
  refine ⟨by decide, by unfold nftIssueMarkers; decide, by unfold nftTransferMarkers; decide,
    by decide, by decide, by decide⟩

/-- C12 (amended): the NFT-issue and NFT-transfer marker patterns overlap only on
scripts with `script[len-1] = 1`, and the order of the dispatcher resolves the overlap.
On a script of at least 1024 bytes: when the issue pattern matches, `script[len-1]` is
0 or 1 and the dispatcher runs the NFT-issue decoder; a script that satisfies both
patterns has `script[len-1] = 1`; no script with `script[len-1] = 0` satisfies the
transfer pattern; and when the transfer pattern matches and the issue pattern does not,
the dispatcher runs the NFT-transfer decoder. -/
theorem nft_patterns_ordered (H : List Byte → List Byte) (s : List Byte) (txo : TxoData)
    (h : 1024 ≤ s.length) :
    (nftIssueMarkers s →
        (index s ((s.length : Int) - 1) = some 0 ∨ index s ((s.length : Int) - 1) = some 1) ∧
          DecodeSensibleTxo H s txo = decodeNFTIssue H s.length s txo) ∧
      (nftIssueMarkers s → nftTransferMarkers s → index s ((s.length : Int) - 1) = some 1) ∧
      (index s ((s.length : Int) - 1) = some 0 → ¬ nftTransferMarkers s) ∧
      (¬ nftIssueMarkers s → nftTransferMarkers s →
        DecodeSensibleTxo H s txo = decodeNFTTransfer H s.length s txo) := by
  rw [nftIssueMarkers_iff s h, nftTransferMarkers_iff s h,
    index_eq_some_iff s _ _ (by omega) (by omega), index_eq_some_iff s _ _ (by omega) (by omega)]
  refine ⟨fun hi => ⟨byte_lt_two _ hi.1, ?_⟩, fun _ ht => ht.1, fun h0 ht => ?_, fun hi ht => ?_⟩
  · rw [DecodeSensibleTxo_eq H s txo h, if_neg (not_hasSensibleFlag_of_issue s hi), if_pos hi]
  · have e := ht.1
    rw [h0] at e
    exact absurd e (by decide)
  · have hf : ¬ hasSensibleFlag s = true := by
      rw [hasSensibleFlag_iff]
      exact not_endsWithFlag_of_last_lt s (by rw [ht.1]; decide)
    rw [DecodeSensibleTxo_eq H s txo h, if_neg hf, if_neg hi, if_pos ht]

/-- Witness of C12 (amended): the script that carries both marker patterns. -/
theorem nft_patterns_ordered_witness :
    1024 ≤ sampleTransferPlanted.length ∧
    ((nftIssueMarkers sampleTransferPlanted →
        (index sampleTransferPlanted ((sampleTransferPlanted.length : Int) - 1) = some 0 ∨
          index sampleTransferPlanted ((sampleTransferPlanted.length : Int) - 1) = some 1) ∧
          DecodeSensibleTxo lengthHash sampleTransferPlanted txo0 =
            decodeNFTIssue lengthHash sampleTransferPlanted.length sampleTransferPlanted txo0) ∧
      (nftIssueMarkers sampleTransferPlanted → nftTransferMarkers sampleTransferPlanted →
        index sampleTransferPlanted ((sampleTransferPlanted.length : Int) - 1) = some 1) ∧
      (index sampleTransferPlanted ((sampleTransferPlanted.length : Int) - 1) = some 0 →
        ¬ nftTransferMarkers sampleTransferPlanted) ∧
      (¬ nftIssueMarkers sampleTransferPlanted → nftTransferMarkers sampleTransferPlanted →
        DecodeSensibleTxo lengthHash sampleTransferPlanted txo0 =
          decodeNFTTransfer lengthHash sampleTransferPlanted.length sampleTransferPlanted txo0)) :=
  ⟨by decide, nft_patterns_ordered lengthHash sampleTransferPlanted txo0 (by decide)⟩

theorem ftSel_of_probes (s : List Byte) (h : 1024 ≤ s.length) :
    (ftProbe s 150 148 → ftSel s = some (76, 36, 151, true)) ∧
      (¬ ftProbe s 150 148 → ftProbe s 110 108 → ftSel s = some (36, 0, 111, false)) ∧
      (¬ ftProbe s 150 148 → ¬ ftProbe s 110 108 → ftProbe s 94 92 →
        ftSel s = some (20, 0, 95, false)) ∧
      (¬ ftProbe s 150 148 → ¬ ftProbe s 110 108 → ¬ ftProbe s 94 92 → ftProbe s 88 86 →
        ftSel s = some (36, 0, 89, false)) ∧
      (¬ ftProbe s 150 148 → ¬ ftProbe s 110 108 → ¬ ftProbe s 94 92 → ¬ ftProbe s 88 86 →
        ftProbe s 114 112 → ftSel s = some (20, 0, 115, false)) ∧
      (¬ ftAnyProbe s → ftSel s = none) := by
  unfold ftAnyProbe
  rw [ftProbe_iff s 150 149 _ h (by omega) (by omega),
    ftProbe_iff s 110 109 _ h (by omega) (by omega),
    ftProbe_iff s 94 93 _ h (by omega) (by omega),
    ftProbe_iff s 88 87 _ h (by omega) (by omega),
    ftProbe_iff s 114 113 _ h (by omega) (by omega)]
  simp only [ftSel]
  refine ⟨fun h5 => ?_, fun h5 h4 => ?_, fun h5 h4 h3 => ?_, fun h5 h4 h3 h2 => ?_,
    fun h5 h4 h3 h2 h1 => ?_, fun hn => ?_⟩
  · rw [if_pos h5]
  · rw [if_neg h5, if_pos h4]
  · rw [if_neg h5, if_neg h4, if_pos h3]
  · rw [if_neg h5, if_neg h4, if_neg h3, if_pos h2]
  · rw [if_neg h5, if_neg h4, if_neg h3, if_neg h2, if_pos h1]
  · rw [if_neg (fun e => hn (Or.inl e)), if_neg (fun e => hn (Or.inr (Or.inl e))),
      if_neg (fun e => hn (Or.inr (Or.inr (Or.inl e)))),
      if_neg (fun e => hn (Or.inr (Or.inr (Or.inr (Or.inl e))))),
      if_neg (fun e => hn (Or.inr (Or.inr (Or.inr (Or.inr e)))))]

theorem decodeFT_of_ftSel (H : List Byte → List Byte) (s : List Byte) (txo : TxoData)
    (h : 1024 ≤ s.length) (g sid d : Int) (hash : Bool) (e : ftSel s = some (g, sid, d, hash)) :
    ftVersion s.length s = some (some (g, sid, d, hash)) ∧
      decodeFT H s.length s txo = some (true, ftRecord H s txo g d hash) := by
  rw [ftVersion_eq s h, decodeFT_eq H s txo h, e]
  exact ⟨rfl, rfl⟩

/-- C13: on a script of at least 1024 bytes `decodeFT` returns, and it selects the first
version, in the order v5, v4, v3, v2, v1, whose probe matches (`0x4c, 148` at `len-150`;
`0x4c, 108` at `len-110`; `0x4c, 92` at `len-94`; `0x4c, 86` at `len-88`; `0x4c, 112` at
`len-114`): it returns false exactly when no probe matches, and otherwise returns true
with `code_hash = hash160(script[0 .. len-T])`, `T` = 151, 111, 95, 89, 115 for v5, v4,
v3, v2, v1. -/
theorem decodeFT_first_match (H : List Byte → List Byte) (s : List Byte) (txo : TxoData)
    (h : 1024 ≤ s.length) :
    ∃ (ret : Bool) (txo' : TxoData), decodeFT H s.length s txo = some (ret, txo') ∧
      (ret = false ↔ ¬ ftAnyProbe s) ∧
      (ftProbe s 150 148 →
        ftVersion s.length s = some (some (76, 36, 151, true)) ∧ ret = true ∧
          ∃ pre, slice s 0 ((s.length : Int) - 151) = some pre ∧ txo'.CodeHash = H pre) ∧
      (¬ ftProbe s 150 148 → ftProbe s 110 108 →
        ftVersion s.length s = some (some (36, 0, 111, false)) ∧ ret = true ∧
          ∃ pre, slice s 0 ((s.length : Int) - 111) = some pre ∧ txo'.CodeHash = H pre) ∧
      (¬ ftProbe s 150 148 → ¬ ftProbe s 110 108 → ftProbe s 94 92 →
        ftVersion s.length s = some (some (20, 0, 95, false)) ∧ ret = true ∧
          ∃ pre, slice s 0 ((s.length : Int) - 95) = some pre ∧ txo'.CodeHash = H pre) ∧
      (¬ ftProbe s 150 148 → ¬ ftProbe s 110 108 → ¬ ftProbe s 94 92 → ftProbe s 88 86 →
        ftVersion s.length s = some (some (36, 0, 89, false)) ∧ ret = true ∧
          ∃ pre, slice s 0 ((s.length : Int) - 89) = some pre ∧ txo'.CodeHash = H pre) ∧
      (¬ ftProbe s 150 148 → ¬ ftProbe s 110 108 → ¬ ftProbe s 94 92 → ¬ ftProbe s 88 86 →
        ftProbe s 114 112 →
        ftVersion s.length s = some (some (20, 0, 115, false)) ∧ ret = true ∧
          ∃ pre, slice s 0 ((s.length : Int) - 115) = some pre ∧ txo'.CodeHash = H pre) := by
  obtain ⟨p5, p4, p3, p2, p1, p0⟩ := ftSel_of_probes s h
  have hany := ftSel_isSome_iff s h
  rcases hsel : ftSel s with _ | ⟨g, sid, d, hash⟩
  · have hno : ¬ ftAnyProbe s := by
      rw [← hany, hsel]; simp
    refine ⟨false, txo, by rw [decodeFT_eq H s txo h, hsel], ⟨fun _ => hno, fun _ => rfl⟩,
      fun a => absurd (Or.inl a) hno, fun _ a => absurd (Or.inr (Or.inl a)) hno,
      fun _ _ a => absurd (Or.inr (Or.inr (Or.inl a))) hno,
      fun _ _ _ a => absurd (Or.inr (Or.inr (Or.inr (Or.inl a)))) hno,
      fun _ _ _ _ a => absurd (Or.inr (Or.inr (Or.inr (Or.inr a)))) hno⟩
  · have hyes : ftAnyProbe s := by
      rw [← hany, hsel]; rfl
    obtain ⟨hv, hd⟩ := decodeFT_of_ftSel H s txo h g sid d hash hsel
    have key : ∀ g' sid' d' hash', ftSel s = some (g', sid', d', hash') → 0 < d' → d' ≤ 1024 →
        ftVersion s.length s = some (some (g', sid', d', hash')) ∧ true = true ∧
          ∃ pre, slice s 0 ((s.length : Int) - d') = some pre ∧
            (ftRecord H s txo g d hash).CodeHash = H pre := by
      intro g' sid' d' hash' e hd0 hd1
      rw [hsel] at e
      injection e with e
      injection e with e1 e
      injection e with e2 e
      injection e with e3 e4
      subst e1 e2 e3 e4
      exact ⟨hv, rfl, _, slice_eq_some s _ _ (by omega) (by omega) (by omega), rfl⟩
    refine ⟨true, ftRecord H s txo g d hash, hd,
      ⟨fun e => (by cases e), fun e => absurd hyes e⟩,
      fun a => key _ _ _ _ (p5 a) (by norm_num) (by norm_num),
      fun a b => key _ _ _ _ (p4 a b) (by norm_num) (by norm_num),
      fun a b c => key _ _ _ _ (p3 a b c) (by norm_num) (by norm_num),
      fun a b c e => key _ _ _ _ (p2 a b c e) (by norm_num) (by norm_num),
      fun a b c e f => key _ _ _ _ (p1 a b c e f) (by norm_num) (by norm_num)⟩

/-- Witness of C13: the FT v3 scenario script. -/
theorem decodeFT_first_match_witness :
    1024 ≤ sampleFT3.length ∧
    ∃ (ret : Bool) (txo' : TxoData),
      decodeFT lengthHash sampleFT3.length sampleFT3 txo0 = some (ret, txo') ∧
      (ret = false ↔ ¬ ftAnyProbe sampleFT3) ∧
      (ftProbe sampleFT3 150 148 →
        ftVersion sampleFT3.length sampleFT3 = some (some (76, 36, 151, true)) ∧ ret = true ∧
          ∃ pre, slice sampleFT3 0 ((sampleFT3.length : Int) - 151) = some pre ∧
            txo'.CodeHash = lengthHash pre) ∧
      (¬ ftProbe sampleFT3 150 148 → ftProbe sampleFT3 110 108 →
        ftVersion sampleFT3.length sampleFT3 = some (some (36, 0, 111, false)) ∧ ret = true ∧
          ∃ pre, slice sampleFT3 0 ((sampleFT3.length : Int) - 111) = some pre ∧
            txo'.CodeHash = lengthHash pre) ∧
      (¬ ftProbe sampleFT3 150 148 → ¬ ftProbe sampleFT3 110 108 → ftProbe sampleFT3 94 92 →
        ftVersion sampleFT3.length sampleFT3 = some (some (20, 0, 95, false)) ∧ ret = true ∧
          ∃ pre, slice sampleFT3 0 ((sampleFT3.length : Int) - 95) = some pre ∧
            txo'.CodeHash = lengthHash pre) ∧
      (¬ ftProbe sampleFT3 150 148 → ¬ ftProbe sampleFT3 110 108 → ¬ ftProbe sampleFT3 94 92 →
        ftProbe sampleFT3 88 86 →
        ftVersion sampleFT3.length sampleFT3 = some (some (36, 0, 89, false)) ∧ ret = true ∧
          ∃ pre, slice sampleFT3 0 ((sampleFT3.length : Int) - 89) = some pre ∧
            txo'.CodeHash = lengthHash pre) ∧
      (¬ ftProbe sampleFT3 150 148 → ¬ ftProbe sampleFT3 110 108 → ¬ ftProbe sampleFT3 94 92 →
        ¬ ftProbe sampleFT3 88 86 → ftProbe sampleFT3 114 112 →
        ftVersion sampleFT3.length sampleFT3 = some (some (20, 0, 115, false)) ∧ ret = true ∧
          ∃ pre, slice sampleFT3 0 ((sampleFT3.length : Int) - 115) = some pre ∧
            txo'.CodeHash = lengthHash pre) :=
  ⟨by decide, decodeFT_first_match lengthHash sampleFT3 txo0 (by decide)⟩

theorem DecodeSensibleTxo_of_lt (H : List Byte → List Byte) (s : List Byte) (txo : TxoData)
    (h : s.length < 1024) : DecodeSensibleTxo H s txo = some (false, txo) := by
  have h' : (s.length : Int) < 1024 := by omega
  simp [DecodeSensibleTxo, h']

theorem length_of_DecodeSensibleTxo_true (H : List Byte → List Byte) (s : List Byte)
    (txo txo' : TxoData) (hret : DecodeSensibleTxo H s txo = some (true, txo')) :
    1024 ≤ s.length := by
  by_contra hc
  rw [DecodeSensibleTxo_of_lt H s txo (by omega)] at hret
  cases hret

theorem decodeFT_true (H : List Byte → List Byte) (s : List Byte) (txo txo' : TxoData)
    (h : 1024 ≤ s.length) (hret : decodeFT H s.length s txo = some (true, txo')) :
    ∃ g sid d hash, ftSel s = some (g, sid, d, hash) ∧ txo' = ftRecord H s txo g d hash := by
  rw [decodeFT_eq H s txo h] at hret
  rcases hsel : ftSel s with _ | ⟨g, sid, d, hash⟩
  · rw [hsel] at hret; cases hret
  · rw [hsel] at hret
    injection hret with e
    injection e with _ e
    exact ⟨g, sid, d, hash, rfl, e.symm⟩

theorem decodeUnique_true (H : List Byte → List Byte) (s : List Byte) (txo txo' : TxoData)
    (h : 1024 ≤ s.length) (hret : decodeUnique H s.length s txo = some (true, txo')) :
    uniqueDataLen s < s.length ∧ idx s ((s.length : Int) - uniqueDataLen s) = OP_RETURN ∧
      txo' = uniqueRecord H s txo := by
  rw [decodeUnique_eq H s txo h] at hret
  by_cases hv : uniqueDataLen s ≥ s.length ∨ idx s (s.length - uniqueDataLen s) ≠ OP_RETURN
  · rw [if_pos hv] at hret; cases hret
  · rw [if_neg hv] at hret
    injection hret with e
    injection e with _ e
    refine ⟨?_, ?_, e.symm⟩
    · by_contra hc; exact hv (Or.inl (by omega))
    · by_contra hc; exact hv (Or.inr hc)

theorem DecodeSensibleTxo_true_cases (H : List Byte → List Byte) (s : List Byte)
    (txo txo' : TxoData) (h : 1024 ≤ s.length)
    (hret : DecodeSensibleTxo H s txo = some (true, txo')) :
    (hasSensibleFlag s = true ∧ idx s ((s.length : Int) - 12) = 1 ∧
        ∃ g sid d hash, ftSel s = some (g, sid, d, hash) ∧ txo' = ftRecord H s txo g d hash) ∨
      (hasSensibleFlag s = true ∧ idx s ((s.length : Int) - 12) = 2 ∧
        uniqueDataLen s < s.length ∧ idx s ((s.length : Int) - uniqueDataLen s) = OP_RETURN ∧
        txo' = uniqueRecord H s txo) ∨
      (¬ hasSensibleFlag s = true ∧ nftIssueMatch s ∧ txo' = nftIssueRecord H s txo) ∨
      (¬ hasSensibleFlag s = true ∧ ¬ nftIssueMatch s ∧ nftTransferMatch s ∧
        txo' = nftTransferRecord H s txo) := by
  rw [DecodeSensibleTxo_eq H s txo h] at hret
  by_cases hf : hasSensibleFlag s = true
  · rw [if_pos hf] at hret
    by_cases h1 : idx s ((s.length : Int) - 12) = 1
    · rw [if_pos h1] at hret
      exact Or.inl ⟨hf, h1, decodeFT_true H s txo txo' h hret⟩
    · rw [if_neg h1] at hret
      by_cases h2 : idx s ((s.length : Int) - 12) = 2
      · rw [if_pos h2] at hret
        exact Or.inr (Or.inl ⟨hf, h2, decodeUnique_true H s txo txo' h hret⟩)
      · rw [if_neg h2] at hret; cases hret
  · rw [if_neg hf] at hret
    by_cases hi : nftIssueMatch s
    · rw [if_pos hi, decodeNFTIssue_eq H s txo h] at hret
      injection hret with e
      injection e with _ e
      exact Or.inr (Or.inr (Or.inl ⟨hf, hi, e.symm⟩))
    · rw [if_neg hi] at hret
      by_cases ht : nftTransferMatch s
      · rw [if_pos ht, decodeNFTTransfer_eq H s txo h] at hret
        injection hret with e
        injection e with _ e
        exact Or.inr (Or.inr (Or.inr ⟨hf, hi, ht, e.symm⟩))
      · rw [if_neg ht] at hret; cases hret

theorem ftRecord_lengths (H : List Byte → List Byte) (hH : ∀ l, (H l).length = 20)
    (s : List Byte) (txo : TxoData) (h : 1024 ≤ s.length) (g sid d : Int) (hash : Bool)
    (e : ftSel s = some (g, sid, d, hash)) :
    (ftRecord H s txo g d hash).CodeHash.length = 20 ∧
      (ftRecord H s txo g d hash).AddressPkh.length = 20 ∧
      (hash = true → (ftRecord H s txo g d hash).GenesisId.length = 20) ∧
      (hash = false → (ftRecord H s txo g d hash).GenesisId.length = g.toNat) := by
  have hg : (g = 76 ∨ g = 36 ∨ g = 20) := by
    rcases ftSel_cases s with e' | e' | e' | e' | e' | e' <;> rw [e'] at e <;> cases e <;> simp
  refine ⟨hH _, ?_, fun hh => ?_, fun hh => ?_⟩
  · show (sub s _ _).length = 20
    rw [length_sub s _ _ (by omega) (by omega) (by omega)]; omega
  · subst hh; exact hH _
  · subst hh
    show (sub s _ _).length = g.toNat
    rw [length_sub s _ _ (by omega) (by omega) (by omega)]; congr 1; omega

/-- C14: when `hash160` returns 20 bytes and the decoder returns true, `code_hash` and
`address_pkh` are 20 bytes long and `genesis_id` is 20 bytes long for FT v5, v3 and v1,
36 bytes for FT v4, FT v2 and Unique, 40 bytes for NFT-issue and NFT-transfer. The
decoded layout is named by the dispatcher's own tests: flag suffix with type byte 1
and the first matching FT probe, flag suffix with type byte 2, or no flag suffix and
one of the NFT marker patterns. -/
theorem decoded_field_lengths (H : List Byte → List Byte) (hH : ∀ l, (H l).length = 20)
    (s : List Byte) (txo txo' : TxoData)
    (hret : DecodeSensibleTxo H s txo = some (true, txo')) :
    txo'.CodeHash.length = 20 ∧ txo'.AddressPkh.length = 20 ∧
      (endsWithFlag s → index s ((s.length : Int) - 12) = some 1 →
        (ftProbe s 150 148 → txo'.GenesisId.length = 20) ∧
        (¬ ftProbe s 150 148 → ftProbe s 110 108 → txo'.GenesisId.length = 36) ∧
        (¬ ftProbe s 150 148 → ¬ ftProbe s 110 108 → ftProbe s 94 92 →
          txo'.GenesisId.length = 20) ∧
        (¬ ftProbe s 150 148 → ¬ ftProbe s 110 108 → ¬ ftProbe s 94 92 → ftProbe s 88 86 →
          txo'.GenesisId.length = 36) ∧
        (¬ ftProbe s 150 148 → ¬ ftProbe s 110 108 → ¬ ftProbe s 94 92 → ¬ ftProbe s 88 86 →
          ftProbe s 114 112 → txo'.GenesisId.length = 20)) ∧
      (endsWithFlag s → index s ((s.length : Int) - 12) = some 2 →
        txo'.GenesisId.length = 36) ∧
      (¬ endsWithFlag s →
        (nftIssueMarkers s ∨ nftTransferMarkers s) ∧ txo'.GenesisId.length = 40) := by
  have h := length_of_DecodeSensibleTxo_true H s txo txo' hret
  obtain ⟨p5, p4, p3, p2, p1, _⟩ := ftSel_of_probes s h
  rw [← hasSensibleFlag_iff, index_eq_some_iff s _ _ (by omega) (by omega),
    index_eq_some_iff s _ _ (by omega) (by omega), nftIssueMarkers_iff s h,
    nftTransferMarkers_iff s h]
  rcases DecodeSensibleTxo_true_cases H s txo txo' h hret with
    ⟨hf, h1, g, sid, d, hash, hsel, rfl⟩ | ⟨hf, h2, hd, _, rfl⟩ | ⟨hf, hi, rfl⟩ |
    ⟨hf, hi, ht, rfl⟩
  · obtain ⟨l1, l2, l3, l4⟩ := ftRecord_lengths H hH s txo h g sid d hash hsel
    have key : ∀ g' sid' d' hash' (n : Nat), ftSel s = some (g', sid', d', hash') →
        (hash' = true → n = 20) → (hash' = false → n = g'.toNat) →
        (ftRecord H s txo g d hash).GenesisId.length = n := by
      intro g' sid' d' hash' n e hn1 hn2
      rw [hsel] at e
      injection e with e
      injection e with e1 e
      injection e with e2 e
      injection e with e3 e4
      subst e1 e2 e3 e4
      cases hash
      · rw [hn2 rfl]; exact l4 rfl
      · rw [hn1 rfl]; exact l3 rfl
    refine ⟨l1, l2, fun _ _ => ⟨fun a => key _ _ _ _ _ (p5 a) (fun _ => rfl) (by simp),
      fun a b => key _ _ _ _ _ (p4 a b) (by simp) (fun _ => rfl),
      fun a b c => key _ _ _ _ _ (p3 a b c) (by simp) (fun _ => rfl),
      fun a b c e => key _ _ _ _ _ (p2 a b c e) (by simp) (fun _ => rfl),
      fun a b c e f => key _ _ _ _ _ (p1 a b c e f) (by simp) (fun _ => rfl)⟩,
      fun _ e2 => ?_, fun nf => absurd hf nf⟩
    rw [h1] at e2
    exact absurd e2 (by decide)
  · have hb := uniqueDataLen_bounds s h
    have lg : (uniqueRecord H s txo).GenesisId.length = 36 := by
      show (sub s _ _).length = 36
      rw [length_sub s _ _ (by omega) (by omega) (by omega)]; omega
    refine ⟨hH _, rfl, fun _ e1 => ?_, fun _ _ => lg, fun nf => absurd hf nf⟩
    rw [h2] at e1
    exact absurd e1 (by decide)
  · have lg : (nftIssueRecord H s txo).GenesisId.length = 40 := by
      show (sub s _ _).length = 40
      rw [length_sub s _ _ (by omega) (by omega) (by omega)]; omega
    have la : (nftIssueRecord H s txo).AddressPkh.length = 20 := by
      show (sub s _ _).length = 20
      rw [length_sub s _ _ (by omega) (by omega) (by omega)]; omega
    exact ⟨hH _, la, fun a => absurd a hf, fun a => absurd a hf, fun _ => ⟨Or.inl hi, lg⟩⟩
  · have lg : (nftTransferRecord H s txo).GenesisId.length = 40 := by
      show (sub s _ _).length = 40
      rw [length_sub s _ _ (by omega) (by omega) (by omega)]; omega
    have la : (nftTransferRecord H s txo).AddressPkh.length = 20 := by
      show (sub s _ _).length = 20
      rw [length_sub s _ _ (by omega) (by omega) (by omega)]; omega
    exact ⟨hH _, la, fun a => absurd a hf, fun a => absurd a hf, fun _ => ⟨Or.inr ht, lg⟩⟩

/-- Witness of C14: the FT v3 scenario script with the 20-byte stand-in hash. -/
theorem decoded_field_lengths_witness :
    (∀ l, (lengthHash l).length = 20) ∧
    ∃ txo' : TxoData, DecodeSensibleTxo lengthHash sampleFT3 txo0 = some (true, txo') ∧
      (txo'.CodeHash.length = 20 ∧ txo'.AddressPkh.length = 20 ∧
      (endsWithFlag sampleFT3 → index sampleFT3 ((sampleFT3.length : Int) - 12) = some 1 →
        (ftProbe sampleFT3 150 148 → txo'.GenesisId.length = 20) ∧
        (¬ ftProbe sampleFT3 150 148 → ftProbe sampleFT3 110 108 →
          txo'.GenesisId.length = 36) ∧
        (¬ ftProbe sampleFT3 150 148 → ¬ ftProbe sampleFT3 110 108 → ftProbe sampleFT3 94 92 →
          txo'.GenesisId.length = 20) ∧
        (¬ ftProbe sampleFT3 150 148 → ¬ ftProbe sampleFT3 110 108 → ¬ ftProbe sampleFT3 94 92 →
          ftProbe sampleFT3 88 86 → txo'.GenesisId.length = 36) ∧
        (¬ ftProbe sampleFT3 150 148 → ¬ ftProbe sampleFT3 110 108 → ¬ ftProbe sampleFT3 94 92 →
          ¬ ftProbe sampleFT3 88 86 → ftProbe sampleFT3 114 112 →
          txo'.GenesisId.length = 20)) ∧
      (endsWithFlag sampleFT3 → index sampleFT3 ((sampleFT3.length : Int) - 12) = some 2 →
        txo'.GenesisId.length = 36) ∧
      (¬ endsWithFlag sampleFT3 →
        (nftIssueMarkers sampleFT3 ∨ nftTransferMarkers sampleFT3) ∧
          txo'.GenesisId.length = 40)) :=
  ⟨fun _ => List.length_replicate _ _, ftRecord lengthHash sampleFT3 txo0 20 95 false, by decide,
    decoded_field_lengths lengthHash (fun _ => List.length_replicate _ _) sampleFT3 txo0
      (ftRecord lengthHash sampleFT3 txo0 20 95 false) (by decide)⟩

theorem decodeFT_fields_of_true (H : List Byte → List Byte) (n : Int) (s : List Byte)
    (txo txo' : TxoData) (hret : decodeFT H n s txo = some (true, txo')) :
    ∃ g sid d hash, ftVersion n s = some (some (g, sid, d, hash)) ∧
      ∃ symF nameF : List Byte,
        slice s (n - 8 - 4 - g - 8 - 20 - 1 - 1 - 10) (n - 8 - 4 - g - 8 - 20 - 1 - 1 - 10 + 10)
          = some symF ∧
        slice s (n - 8 - 4 - g - 8 - 20 - 1 - 1 - 10 - 20)
          (n - 8 - 4 - g - 8 - 20 - 1 - 1 - 10 - 20 + 20) = some nameF ∧
        txo'.Symbol = TrimRight symF 0 ∧ txo'.Name = TrimRight nameF 0 := by
  unfold decodeFT at hret
  simp only [bind, Option.bind_eq_some] at hret
  obtain ⟨a, hv, hm⟩ := hret
  rcases a with _ | ⟨g, sid, d, hash⟩
  · cases hm
  · simp only [Option.bind_eq_some] at hm
    obtain ⟨dec, _, symF, hsym, nameF, hname, amtF, _, amt, _, addrF, _, pre, _, hrest⟩ := hm
    refine ⟨g, sid, d, hash, hv, symF, nameF, hsym, hname, ?_⟩
    cases hash
    · simp only [Bool.false_eq_true, if_false, Option.bind_eq_some] at hrest
      obtain ⟨genF, _, e⟩ := hrest
      injection e with e
      injection e with _ e
      subst e
      exact ⟨rfl, rfl⟩
    · simp only [if_true, Option.bind_eq_some] at hrest
      obtain ⟨genF, _, sidF, _, e⟩ := hrest
      injection e with e
      injection e with _ e
      subst e
      exact ⟨rfl, rfl⟩

theorem TrimRight_append_tail (f : List Byte) (c : Byte) :
    ∃ z : List Byte, f = TrimRight f c ++ z ∧ ∀ b ∈ z, b = c := by
  refine ⟨(f.reverse.takeWhile (fun b => b == c)).reverse, ?_, ?_⟩
  · have e := List.takeWhile_append_dropWhile (fun b => b == c) f.reverse
    have e2 := congrArg List.reverse e
    rw [List.reverse_append, List.reverse_reverse] at e2
    exact e2.symm
  · intro b hb
    rw [List.mem_reverse] at hb
    have := List.mem_takeWhile_imp hb
    simpa using this

theorem TrimRight_spec (f : List Byte) (c : Byte) :
    TrimRight f c <+: f ∧ (∀ b ∈ f.drop (TrimRight f c).length, b = c) ∧
      (TrimRight f c).getLast? ≠ some c ∧
      ∀ j, j < f.length → f.getD j c ≠ c → j < (TrimRight f c).length := by
  obtain ⟨z, hz, hzc⟩ := TrimRight_append_tail f c
  have hdrop : f.drop (TrimRight f c).length = z := by
    have e := List.drop_left (TrimRight f c) z
    rw [← hz] at e
    exact e
  refine ⟨⟨z, hz.symm⟩, ?_, ?_, ?_⟩
  · rw [hdrop]; exact hzc
  · intro hl
    have hne : List.rdropWhile (fun b => b == c) f ≠ [] := by
      intro e
      have : TrimRight f c = [] := e
      rw [this] at hl
      cases hl
    have h1 := List.rdropWhile_last_not (fun b => b == c) f hne
    have h2 : (List.rdropWhile (fun b => b == c) f).getLast? = some c := hl
    rw [List.getLast?_eq_getLast _ hne] at h2
    injection h2 with h2
    rw [h2] at h1
    simp at h1
  · intro j hj hne
    by_contra hc
    have hk : (TrimRight f c).length ≤ j := by omega
    have hmem : f.getD j c ∈ f.drop (TrimRight f c).length := by
      rw [List.getD_eq_getElem?_getD, List.getElem?_eq_getElem hj, Option.getD_some]
      have hj2 : j - (TrimRight f c).length < (f.drop (TrimRight f c).length).length := by
        rw [List.length_drop]; omega
      have e : (f.drop (TrimRight f c).length)[j - (TrimRight f c).length] = f[j] := by
        rw [List.getElem_drop]
        congr 1
        omega
      rw [← e]
      exact List.getElem_mem _
    rw [hdrop] at hmem
    exact hne (hzc _ hmem)

theorem length_of_slice (s x : List Byte) (lo hi : Int) (h : slice s lo hi = some x) :
    x.length = (hi - lo).toNat := by
  unfold slice at h
  split_ifs at h with hc
  injection h with h
  subst h
  simp only [List.length_take, List.length_drop]
  omega

/-- C16: whenever `decodeFT` succeeds, with `g` the genesis width of the selected
version, `name` is the 20-byte field `script[len-12-g-60 .. len-12-g-40]` and `symbol`
the 10-byte field `script[len-12-g-40 .. len-12-g-30]`, each with exactly its maximal
run of trailing NUL bytes removed: the result is a prefix of the field, the removed
remainder holds only NUL bytes, the result does not end in a NUL byte, and every
position up to a non-NUL byte of the field (embedded NULs included) is kept. -/
theorem ft_name_symbol_trim (H : List Byte → List Byte) (n : Int) (s : List Byte)
    (txo txo' : TxoData) (hret : decodeFT H n s txo = some (true, txo')) :
    ∃ (g sid d : Int) (hash : Bool) (nameF symF : List Byte),
      ftVersion n s = some (some (g, sid, d, hash)) ∧
      slice s (n - 12 - g - 60) (n - 12 - g - 40) = some nameF ∧ nameF.length = 20 ∧
      slice s (n - 12 - g - 40) (n - 12 - g - 30) = some symF ∧ symF.length = 10 ∧
      (txo'.Name <+: nameF ∧ (∀ b ∈ nameF.drop txo'.Name.length, b = 0) ∧
        txo'.Name.getLast? ≠ some 0 ∧
        ∀ j, j < nameF.length → nameF.getD j 0 ≠ 0 → j < txo'.Name.length) ∧
      (txo'.Symbol <+: symF ∧ (∀ b ∈ symF.drop txo'.Symbol.length, b = 0) ∧
        txo'.Symbol.getLast? ≠ some 0 ∧
        ∀ j, j < symF.length → symF.getD j 0 ≠ 0 → j < txo'.Symbol.length) := by
  obtain ⟨g, sid, d, hash, hv, symF, nameF, hsym, hname, esym, ename⟩ :=
    decodeFT_fields_of_true H n s txo txo' hret
  have e1 : n - 8 - 4 - g - 8 - 20 - 1 - 1 - 10 = n - 12 - g - 40 := by ring
  have e2 : n - 12 - g - 40 + 10 = n - 12 - g - 30 := by ring
  have e3 : n - 8 - 4 - g - 8 - 20 - 1 - 1 - 10 - 20 = n - 12 - g - 60 := by ring
  have e4 : n - 12 - g - 60 + 20 = n - 12 - g - 40 := by ring
  rw [e3, e4] at hname
  rw [e1, e2] at hsym
  have ln : nameF.length = 20 := by
    rw [length_of_slice s nameF _ _ hname]; omega
  have ls : symF.length = 10 := by
    rw [length_of_slice s symF _ _ hsym]; omega
  refine ⟨g, sid, d, hash, nameF, symF, hv, hname, ln, hsym, ls, ?_, ?_⟩
  · rw [ename]; exact TrimRight_spec nameF 0
  · rw [esym]; exact TrimRight_spec symF 0

/-- Witness of C16: the FT v3 scenario script (name "TOKEN", symbol "TKN"). -/
theorem ft_name_symbol_trim_witness :
    decodeFT lengthHash sampleFT3.length sampleFT3 txo0 =
        some (true, ftRecord lengthHash sampleFT3 txo0 20 95 false) ∧
    ∃ (g sid d : Int) (hash : Bool) (nameF symF : List Byte),
      ftVersion sampleFT3.length sampleFT3 = some (some (g, sid, d, hash)) ∧
      slice sampleFT3 ((sampleFT3.length : Int) - 12 - g - 60)
        ((sampleFT3.length : Int) - 12 - g - 40) = some nameF ∧ nameF.length = 20 ∧
      slice sampleFT3 ((sampleFT3.length : Int) - 12 - g - 40)
        ((sampleFT3.length : Int) - 12 - g - 30) = some symF ∧ symF.length = 10 ∧
      ((ftRecord lengthHash sampleFT3 txo0 20 95 false).Name <+: nameF ∧
        (∀ b ∈ nameF.drop (ftRecord lengthHash sampleFT3 txo0 20 95 false).Name.length, b = 0) ∧
        (ftRecord lengthHash sampleFT3 txo0 20 95 false).Name.getLast? ≠ some 0 ∧
        ∀ j, j < nameF.length → nameF.getD j 0 ≠ 0 →
          j < (ftRecord lengthHash sampleFT3 txo0 20 95 false).Name.length) ∧
      ((ftRecord lengthHash sampleFT3 txo0 20 95 false).Symbol <+: symF ∧
        (∀ b ∈ symF.drop (ftRecord lengthHash sampleFT3 txo0 20 95 false).Symbol.length, b = 0) ∧
        (ftRecord lengthHash sampleFT3 txo0 20 95 false).Symbol.getLast? ≠ some 0 ∧
        ∀ j, j < symF.length → symF.getD j 0 ≠ 0 →
          j < (ftRecord lengthHash sampleFT3 txo0 20 95 false).Symbol.length) :=
  ⟨by decide, ft_name_symbol_trim lengthHash sampleFT3.length sampleFT3 txo0
    (ftRecord lengthHash sampleFT3 txo0 20 95 false) (by decide)⟩

/-- C15: on a script of at least 1024 bytes that `decodeFT` decodes while the v5 probe
does not match (versions v4, v3, v2, v1), `sensible_id` and `genesis_id` are equal and
both are the raw bytes `script[len-12-g .. len-12]`, `g` = 36 for v4 and v2, 20 for v3
and v1. -/
theorem ft_sensible_id_alias (H : List Byte → List Byte) (s : List Byte) (txo txo' : TxoData)
    (h : 1024 ≤ s.length) (hret : decodeFT H s.length s txo = some (true, txo'))
    (h5 : ¬ ftProbe s 150 148) :
    txo'.SensibleId = txo'.GenesisId ∧
      (ftProbe s 110 108 →
        slice s ((s.length : Int) - 12 - 36) ((s.length : Int) - 12) = some txo'.GenesisId) ∧
      (¬ ftProbe s 110 108 → ftProbe s 94 92 →
        slice s ((s.length : Int) - 12 - 20) ((s.length : Int) - 12) = some txo'.GenesisId) ∧
      (¬ ftProbe s 110 108 → ¬ ftProbe s 94 92 → ftProbe s 88 86 →
        slice s ((s.length : Int) - 12 - 36) ((s.length : Int) - 12) = some txo'.GenesisId) ∧
      (¬ ftProbe s 110 108 → ¬ ftProbe s 94 92 → ¬ ftProbe s 88 86 → ftProbe s 114 112 →
        slice s ((s.length : Int) - 12 - 20) ((s.length : Int) - 12) = some txo'.GenesisId) := by
  obtain ⟨p5, p4, p3, p2, p1, _⟩ := ftSel_of_probes s h
  obtain ⟨g, sid, d, hash, hsel, rfl⟩ := decodeFT_true H s txo txo' h hret
  have key : ∀ g' sid' d', ftSel s = some (g', sid', d', false) → 0 ≤ g' → g' ≤ 100 →
      (ftRecord H s txo g d hash).SensibleId = (ftRecord H s txo g d hash).GenesisId ∧
      slice s ((s.length : Int) - 12 - g') ((s.length : Int) - 12)
        = some (ftRecord H s txo g d hash).GenesisId := by
    intro g' sid' d' e hg0 hg1
    rw [hsel] at e
    injection e with e
    injection e with e1 e
    injection e with e2 e
    injection e with e3 e4
    subst e1 e2 e3 e4
    exact ⟨rfl, slice_eq_some s _ _ (by omega) (by omega) (by omega)⟩
  have halias : (ftRecord H s txo g d hash).SensibleId = (ftRecord H s txo g d hash).GenesisId := by
    rcases ftSel_cases s with e | e | e | e | e | e
    · rw [hsel] at e; cases e
    · have hp : ftProbe s 150 148 := by
        rw [ftProbe_iff s 150 149 _ h (by omega) (by omega)]
        by_contra hc
        simp only [ftSel] at e
        rw [if_neg hc] at e
        split_ifs at e <;> simp at e
      exact absurd hp h5
    · exact (key _ _ _ e (by norm_num) (by norm_num)).1
    · exact (key _ _ _ e (by norm_num) (by norm_num)).1
    · exact (key _ _ _ e (by norm_num) (by norm_num)).1
    · exact (key _ _ _ e (by norm_num) (by norm_num)).1
  exact ⟨halias, fun a => (key _ _ _ (p4 h5 a) (by norm_num) (by norm_num)).2,
    fun a b => (key _ _ _ (p3 h5 a b) (by norm_num) (by norm_num)).2,
    fun a b c => (key _ _ _ (p2 h5 a b c) (by norm_num) (by norm_num)).2,
    fun a b c e => (key _ _ _ (p1 h5 a b c e) (by norm_num) (by norm_num)).2⟩

/-- Witness of C15: the FT v3 scenario script (genesis id 20 x 0x22). -/
theorem ft_sensible_id_alias_witness :
    1024 ≤ sampleFT3.length ∧
    decodeFT lengthHash sampleFT3.length sampleFT3 txo0 =
      some (true, ftRecord lengthHash sampleFT3 txo0 20 95 false) ∧
    ¬ ftProbe sampleFT3 150 148 ∧
    ((ftRecord lengthHash sampleFT3 txo0 20 95 false).SensibleId =
        (ftRecord lengthHash sampleFT3 txo0 20 95 false).GenesisId ∧
      (ftProbe sampleFT3 110 108 →
        slice sampleFT3 ((sampleFT3.length : Int) - 12 - 36) ((sampleFT3.length : Int) - 12) =
          some (ftRecord lengthHash sampleFT3 txo0 20 95 false).GenesisId) ∧
      (¬ ftProbe sampleFT3 110 108 → ftProbe sampleFT3 94 92 →
        slice sampleFT3 ((sampleFT3.length : Int) - 12 - 20) ((sampleFT3.length : Int) - 12) =
          some (ftRecord lengthHash sampleFT3 txo0 20 95 false).GenesisId) ∧
      (¬ ftProbe sampleFT3 110 108 → ¬ ftProbe sampleFT3 94 92 → ftProbe sampleFT3 88 86 →
        slice sampleFT3 ((sampleFT3.length : Int) - 12 - 36) ((sampleFT3.length : Int) - 12) =
          some (ftRecord lengthHash sampleFT3 txo0 20 95 false).GenesisId) ∧
      (¬ ftProbe sampleFT3 110 108 → ¬ ftProbe sampleFT3 94 92 → ¬ ftProbe sampleFT3 88 86 →
        ftProbe sampleFT3 114 112 →
        slice sampleFT3 ((sampleFT3.length : Int) - 12 - 20) ((sampleFT3.length : Int) - 12) =
          some (ftRecord lengthHash sampleFT3 txo0 20 95 false).GenesisId)) :=
  ⟨by decide, by decide, by unfold ftProbe; decide,
    ft_sensible_id_alias lengthHash sampleFT3 txo0
      (ftRecord lengthHash sampleFT3 txo0 20 95 false) (by decide) (by decide)
      (by unfold ftProbe; decide)⟩

theorem sub_cons (s : List Byte) (lo hi : Int) (h0 : 0 ≤ lo) (h1 : lo < hi)
    (h2 : hi ≤ (s.length : Int)) : sub s lo hi = idx s lo :: sub s (lo + 1) hi := by
  have hk : lo.toNat < s.length := by omega
  have e1 : hi.toNat - lo.toNat = (hi.toNat - (lo + 1).toNat) + 1 := by omega
  have e2 : (lo + 1).toNat = lo.toNat + 1 := by omega
  unfold sub idx
  rw [List.drop_eq_getElem_cons hk, e1, List.take_succ_cons, e2, List.getD_eq_getElem?_getD,
    List.getElem?_eq_getElem hk, Option.getD_some]

theorem TrimRight_keeps_two (a b : Byte) (rest : List Byte) (hb : b ≠ 0) :
    2 ≤ (TrimRight (a :: b :: rest) 0).length ∧ (TrimRight (a :: b :: rest) 0).take 2 = [a, b] := by
  obtain ⟨hp, _, _, hk⟩ := TrimRight_spec (a :: b :: rest) 0
  have h2 : 1 < (TrimRight (a :: b :: rest) 0).length := hk 1 (by simp) (by simpa using hb)
  refine ⟨h2, ?_⟩
  rw [List.prefix_iff_eq_take] at hp
  rw [hp, List.take_take]
  have : min 2 (TrimRight (a :: b :: rest) 0).length = 2 := by omega
  rw [this]
  rfl

/-- C20: on a script of at least 1024 bytes that `decodeFT` decodes as v2 (the v5, v4 and
v3 probes fail, `script[len-88] = 0x4c`, `script[len-87] = 86`), the decoder returns
true and the 10-byte symbol field is `script[len-88 .. len-78]`, which starts at the
pushdata preamble; so the decoded symbol has at least 2 bytes and begins with
`0x4c, 0x56`. -/
theorem ft_v2_symbol_prefix (H : List Byte → List Byte) (s : List Byte) (txo : TxoData)
    (h : 1024 ≤ s.length) (h5 : ¬ ftProbe s 150 148) (h4 : ¬ ftProbe s 110 108)
    (h3 : ¬ ftProbe s 94 92) (h2 : ftProbe s 88 86) :
    ∃ (txo' : TxoData) (symF : List Byte),
      decodeFT H s.length s txo = some (true, txo') ∧
      slice s ((s.length : Int) - 88) ((s.length : Int) - 78) = some symF ∧
      txo'.Symbol = TrimRight symF 0 ∧
      2 ≤ txo'.Symbol.length ∧ txo'.Symbol.take 2 = [0x4c, 0x56] := by
  obtain ⟨_, _, _, p2, _, _⟩ := ftSel_of_probes s h
  have hsel := p2 h5 h4 h3 h2
  obtain ⟨_, hd⟩ := decodeFT_of_ftSel H s txo h _ _ _ _ hsel
  rw [ftProbe_iff s 88 87 _ h (by omega) (by omega)] at h2
  have e1 : (s.length : Int) - 12 - 36 - 40 = s.length - 88 := by omega
  have e2 : (s.length : Int) - 12 - 36 - 30 = s.length - 78 := by omega
  have hsym : (ftRecord H s txo 36 89 false).Symbol
      = TrimRight (sub s ((s.length : Int) - 88) ((s.length : Int) - 78)) 0 := by
    show TrimRight (sub s _ _) 0 = _
    rw [e1, e2]
  have hcons : sub s ((s.length : Int) - 88) ((s.length : Int) - 78)
      = 0x4c :: 0x56 :: sub s ((s.length : Int) - 88 + 1 + 1) ((s.length : Int) - 78) := by
    rw [sub_cons s _ _ (by omega) (by omega) (by omega),
      sub_cons s _ _ (by omega) (by omega) (by omega), h2.1]
    have e3 : (s.length : Int) - 88 + 1 = s.length - 87 := by omega
    rw [e3, h2.2]
  refine ⟨ftRecord H s txo 36 89 false, sub s (s.length - 88) (s.length - 78), hd,
    slice_eq_some s _ _ (by omega) (by omega) (by omega), hsym, ?_, ?_⟩
  · rw [hsym, hcons]
    exact (TrimRight_keeps_two _ _ _ (by decide)).1
  · rw [hsym, hcons]
    exact (TrimRight_keeps_two _ _ _ (by decide)).2


/-- Witness of C20: an FT v2 script; its decoded symbol is "LV" followed by 8 filler bytes. -/
theorem ft_v2_symbol_prefix_witness :
    1024 ≤ sampleFT2.length ∧ ¬ ftProbe sampleFT2 150 148 ∧ ¬ ftProbe sampleFT2 110 108 ∧
      ¬ ftProbe sampleFT2 94 92 ∧ ftProbe sampleFT2 88 86 ∧
      ∃ (txo' : TxoData) (symF : List Byte),
        decodeFT lengthHash sampleFT2.length sampleFT2 txo0 = some (true, txo') ∧
        slice sampleFT2 ((sampleFT2.length : Int) - 88) ((sampleFT2.length : Int) - 78)
          = some symF ∧
        txo'.Symbol = TrimRight symF 0 ∧
        2 ≤ txo'.Symbol.length ∧ txo'.Symbol.take 2 = [0x4c, 0x56] :=
  ⟨by decide, by unfold ftProbe; decide, by unfold ftProbe; decide, by unfold ftProbe; decide,
    by unfold ftProbe; decide,
    ft_v2_symbol_prefix lengthHash sampleFT2 txo0 (by decide) (by unfold ftProbe; decide)
      (by unfold ftProbe; decide) (by unfold ftProbe; decide) (by unfold ftProbe; decide)⟩

theorem not_hasSensibleFlag_of_transfer (s : List Byte) (h : nftTransferMatch s) :
    ¬ hasSensibleFlag s = true := by
  rw [hasSensibleFlag_iff]
  exact not_endsWithFlag_of_last_lt s (by rw [h.1]; decide)

/-- C18: each sub-decoder writes only its own fields. When the decoder returns true:
through the NFT-issue branch `meta_tx_id`, `name`, `symbol`, `decimal`, `amount` and
`sensible_id` keep their initial values; through the NFT-transfer branch `name`,
`symbol`, `decimal`, `amount` and `sensible_id` do; through the FT branch `token_idx`
and `meta_tx_id` do; through the Unique branch every field other than `code_type`,
`code_hash`, `genesis_id` and `address_pkh` does. -/
theorem decode_frame (H : List Byte → List Byte) (s : List Byte) (txo txo' : TxoData)
    (hret : DecodeSensibleTxo H s txo = some (true, txo')) :
    1024 ≤ s.length ∧
      (nftIssueMarkers s →
        txo'.MetaTxId = txo.MetaTxId ∧ txo'.Name = txo.Name ∧ txo'.Symbol = txo.Symbol ∧
          txo'.Decimal = txo.Decimal ∧ txo'.Amount = txo.Amount ∧
          txo'.SensibleId = txo.SensibleId) ∧
      (¬ nftIssueMarkers s → nftTransferMarkers s →
        txo'.Name = txo.Name ∧ txo'.Symbol = txo.Symbol ∧ txo'.Decimal = txo.Decimal ∧
          txo'.Amount = txo.Amount ∧ txo'.SensibleId = txo.SensibleId) ∧
      (endsWithFlag s → index s ((s.length : Int) - 12) = some 1 →
        txo'.TokenIdx = txo.TokenIdx ∧ txo'.MetaTxId = txo.MetaTxId) ∧
      (endsWithFlag s → index s ((s.length : Int) - 12) = some 2 →
        txo' = { txo with
          CodeType := txo'.CodeType
          CodeHash := txo'.CodeHash
          GenesisId := txo'.GenesisId
          AddressPkh := txo'.AddressPkh }) := by
  have h := length_of_DecodeSensibleTxo_true H s txo txo' hret
  refine ⟨h, ?_⟩
  rw [← hasSensibleFlag_iff, index_eq_some_iff s _ _ (by omega) (by omega),
    index_eq_some_iff s _ _ (by omega) (by omega), nftIssueMarkers_iff s h,
    nftTransferMarkers_iff s h]
  rcases DecodeSensibleTxo_true_cases H s txo txo' h hret with
    ⟨hf, h1, g, sid, d, hash, hsel, rfl⟩ | ⟨hf, h2, hd, _, rfl⟩ | ⟨hf, hi, rfl⟩ |
    ⟨hf, hi, ht, rfl⟩
  · refine ⟨fun a => absurd hf (not_hasSensibleFlag_of_issue s a),
      fun _ a => absurd hf (not_hasSensibleFlag_of_transfer s a), fun _ _ => ⟨rfl, rfl⟩,
      fun _ e2 => ?_⟩
    rw [h1] at e2
    exact absurd e2 (by decide)
  · refine ⟨fun a => absurd hf (not_hasSensibleFlag_of_issue s a),
      fun _ a => absurd hf (not_hasSensibleFlag_of_transfer s a), fun _ e1 => ?_,
      fun _ _ => rfl⟩
    rw [h2] at e1
    exact absurd e1 (by decide)
  · exact ⟨fun _ => ⟨rfl, rfl, rfl, rfl, rfl, rfl⟩, fun a => absurd hi a,
      fun a => absurd a hf, fun a => absurd a hf⟩
  · exact ⟨fun a => absurd a hi, fun _ _ => ⟨rfl, rfl, rfl, rfl, rfl⟩,
      fun a => absurd a hf, fun a => absurd a hf⟩

/-- Witness of C18: the FT v3 scenario script, decoded into a record whose fields are all
set beforehand. -/
theorem decode_frame_witness :
    DecodeSensibleTxo lengthHash sampleFT3 txoFilled =
        some (true, ftRecord lengthHash sampleFT3 txoFilled 20 95 false) ∧
    (1024 ≤ sampleFT3.length ∧
      (nftIssueMarkers sampleFT3 →
        (ftRecord lengthHash sampleFT3 txoFilled 20 95 false).MetaTxId = txoFilled.MetaTxId ∧
          (ftRecord lengthHash sampleFT3 txoFilled 20 95 false).Name = txoFilled.Name ∧
          (ftRecord lengthHash sampleFT3 txoFilled 20 95 false).Symbol = txoFilled.Symbol ∧
          (ftRecord lengthHash sampleFT3 txoFilled 20 95 false).Decimal = txoFilled.Decimal ∧
          (ftRecord lengthHash sampleFT3 txoFilled 20 95 false).Amount = txoFilled.Amount ∧
          (ftRecord lengthHash sampleFT3 txoFilled 20 95 false).SensibleId =
            txoFilled.SensibleId) ∧
      (¬ nftIssueMarkers sampleFT3 → nftTransferMarkers sampleFT3 →
        (ftRecord lengthHash sampleFT3 txoFilled 20 95 false).Name = txoFilled.Name ∧
          (ftRecord lengthHash sampleFT3 txoFilled 20 95 false).Symbol = txoFilled.Symbol ∧
          (ftRecord lengthHash sampleFT3 txoFilled 20 95 false).Decimal = txoFilled.Decimal ∧
          (ftRecord lengthHash sampleFT3 txoFilled 20 95 false).Amount = txoFilled.Amount ∧
          (ftRecord lengthHash sampleFT3 txoFilled 20 95 false).SensibleId =
            txoFilled.SensibleId) ∧
      (endsWithFlag sampleFT3 → index sampleFT3 ((sampleFT3.length : Int) - 12) = some 1 →
        (ftRecord lengthHash sampleFT3 txoFilled 20 95 false).TokenIdx = txoFilled.TokenIdx ∧
          (ftRecord lengthHash sampleFT3 txoFilled 20 95 false).MetaTxId =
            txoFilled.MetaTxId) ∧
      (endsWithFlag sampleFT3 → index sampleFT3 ((sampleFT3.length : Int) - 12) = some 2 →
        ftRecord lengthHash sampleFT3 txoFilled 20 95 false = { txoFilled with
          CodeType := (ftRecord lengthHash sampleFT3 txoFilled 20 95 false).CodeType
          CodeHash := (ftRecord lengthHash sampleFT3 txoFilled 20 95 false).CodeHash
          GenesisId := (ftRecord lengthHash sampleFT3 txoFilled 20 95 false).GenesisId
          AddressPkh := (ftRecord lengthHash sampleFT3 txoFilled 20 95 false).AddressPkh })) :=
  ⟨by decide, decode_frame lengthHash sampleFT3 txoFilled
    (ftRecord lengthHash sampleFT3 txoFilled 20 95 false) (by decide)⟩

/-- C19: atomicity on rejection. For a script of any length the decoder returns, and
whenever it returns false the record is equal to the initial record in every field: the
length gate, an unknown protocol type, a failed FT probe chain, a failed Unique
validation and the absence of NFT markers all leave the record untouched. -/
theorem rejection_leaves_record (H : List Byte → List Byte) (s : List Byte) (txo : TxoData) :
    (∃ ret txo', DecodeSensibleTxo H s txo = some (ret, txo')) ∧
      ∀ txo', DecodeSensibleTxo H s txo = some (false, txo') → txo' = txo := by
  by_cases h : 1024 ≤ s.length
  · have hsome := DecodeSensibleTxo_isSome H s txo h
    constructor
    · rcases hd : DecodeSensibleTxo H s txo with _ | ⟨ret, txo'⟩
      · rw [hd] at hsome; cases hsome
      · exact ⟨ret, txo', rfl⟩
    · intro txo' hret
      rw [DecodeSensibleTxo_eq H s txo h] at hret
      have hft : decodeFT H s.length s txo = some (false, txo') → txo' = txo := by
        intro e
        rw [decodeFT_eq H s txo h] at e
        rcases hsel : ftSel s with _ | ⟨g, sid, d, hash⟩
        · rw [hsel] at e
          injection e with e
          injection e with _ e
          exact e.symm
        · rw [hsel] at e
          injection e with e
          injection e with e _
          cases e
      have hun : decodeUnique H s.length s txo = some (false, txo') → txo' = txo := by
        intro e
        rw [decodeUnique_eq H s txo h] at e
        split_ifs at e
        · injection e with e
          injection e with _ e
          exact e.symm
        · injection e with e
          injection e with e _
          cases e
      split_ifs at hret
      · exact hft hret
      · exact hun hret
      · injection hret with e
        injection e with _ e
        exact e.symm
      · rw [decodeNFTIssue_eq H s txo h] at hret
        injection hret with e
        injection e with e _
        cases e
      · rw [decodeNFTTransfer_eq H s txo h] at hret
        injection hret with e
        injection e with e _
        cases e
      · injection hret with e
        injection e with _ e
        exact e.symm
  · have e := DecodeSensibleTxo_of_lt H s txo (by omega)
    refine ⟨⟨false, txo, e⟩, fun txo' hret => ?_⟩
    rw [e] at hret
    injection hret with e
    injection e with _ e
    exact e.symm

/-- Witness of C19: the Unique scenario script in the layout of spec section 6, which
fails the Unique validation, with an initial record whose fields are all set. -/
theorem rejection_leaves_record_witness :
    DecodeSensibleTxo lengthHash sampleUniqueSection6 txoFilled = some (false, txoFilled) ∧
    ((∃ ret txo', DecodeSensibleTxo lengthHash sampleUniqueSection6 txoFilled = some (ret, txo')) ∧
      ∀ txo', DecodeSensibleTxo lengthHash sampleUniqueSection6 txoFilled = some (false, txo') →
        txo' = txoFilled) :=
  ⟨by decide, rejection_leaves_record lengthHash sampleUniqueSection6 txoFilled⟩

theorem idx_congr (s1 s2 : List Byte) (hl : s2.length = s1.length)
    (ht : s1.drop (s1.length - 168) = s2.drop (s2.length - 168)) (i : Int)
    (hi : (s1.length : Int) - 168 ≤ i) (h168 : 168 ≤ s1.length) : idx s1 i = idx s2 i := by
  have e : i.toNat = (s1.length - 168) + (i.toNat - (s1.length - 168)) := by omega
  unfold idx
  rw [List.getD_eq_getElem?_getD, List.getD_eq_getElem?_getD, e, ← List.getElem?_drop,
    ← List.getElem?_drop, ht, hl]

theorem sub_congr (s1 s2 : List Byte) (hl : s2.length = s1.length)
    (ht : s1.drop (s1.length - 168) = s2.drop (s2.length - 168)) (lo hi : Int)
    (hlo : (s1.length : Int) - 168 ≤ lo) (h168 : 168 ≤ s1.length) :
    sub s1 lo hi = sub s2 lo hi := by
  have e : lo.toNat = (s1.length - 168) + (lo.toNat - (s1.length - 168)) := by omega
  unfold sub
  rw [e, ← List.drop_drop, ← List.drop_drop, ht, hl]

theorem HasSuffix_congr (s1 s2 t : List Byte) (hl : s2.length = s1.length)
    (ht : s1.drop (s1.length - 168) = s2.drop (s2.length - 168)) (h168 : 168 ≤ s1.length)
    (ht8 : t.length = 8) : HasSuffix s1 t = HasSuffix s2 t := by
  have e : s1.length - 8 = (s1.length - 168) + 160 := by omega
  unfold HasSuffix
  rw [hl, ht8, e, ← List.drop_drop, ← List.drop_drop, ht, hl]

theorem hasSensibleFlag_congr (s1 s2 : List Byte) (hl : s2.length = s1.length)
    (ht : s1.drop (s1.length - 168) = s2.drop (s2.length - 168)) (h168 : 168 ≤ s1.length) :
    hasSensibleFlag s1 = hasSensibleFlag s2 := by
  unfold hasSensibleFlag
  rw [HasSuffix_congr s1 s2 flagSensible hl ht h168 rfl,
    HasSuffix_congr s1 s2 flagOraclesv hl ht h168 rfl]

theorem ftSel_congr (s1 s2 : List Byte) (hl : s2.length = s1.length)
    (ht : s1.drop (s1.length - 168) = s2.drop (s2.length - 168)) (h168 : 168 ≤ s1.length) :
    ftSel s1 = ftSel s2 := by
  simp only [ftSel, hl]
  simp (disch := omega) only [idx_congr s1 s2 hl ht]

theorem ftRecord_congr (H : List Byte → List Byte) (s1 s2 : List Byte) (txo : TxoData)
    (hl : s2.length = s1.length)
    (ht : s1.drop (s1.length - 168) = s2.drop (s2.length - 168)) (h168 : 168 ≤ s1.length)
    (g d : Int) (hash : Bool) (hg0 : 0 ≤ g) (hg1 : g ≤ 96) :
    eraseCodeHash (ftRecord H s1 txo g d hash) = eraseCodeHash (ftRecord H s2 txo g d hash) := by
  simp only [eraseCodeHash, ftRecord, hl]
  simp (disch := omega) only [idx_congr s1 s2 hl ht, sub_congr s1 s2 hl ht]

theorem uniqueSize_congr (s1 s2 : List Byte) (hl : s2.length = s1.length)
    (ht : s1.drop (s1.length - 168) = s2.drop (s2.length - 168)) (h168 : 168 ≤ s1.length) :
    uniqueSize s1 = uniqueSize s2 := by
  simp only [uniqueSize, hl]
  simp (disch := omega) only [sub_congr s1 s2 hl ht]

theorem uniqueRecord_congr (H : List Byte → List Byte) (s1 s2 : List Byte) (txo : TxoData)
    (hl : s2.length = s1.length)
    (ht : s1.drop (s1.length - 168) = s2.drop (s2.length - 168)) (h168 : 168 ≤ s1.length) :
    eraseCodeHash (uniqueRecord H s1 txo) = eraseCodeHash (uniqueRecord H s2 txo) := by
  simp only [eraseCodeHash, uniqueRecord, hl]
  simp (disch := omega) only [sub_congr s1 s2 hl ht]

theorem nftIssueMatch_congr (s1 s2 : List Byte) (hl : s2.length = s1.length)
    (ht : s1.drop (s1.length - 168) = s2.drop (s2.length - 168)) (h168 : 168 ≤ s1.length) :
    nftIssueMatch s1 ↔ nftIssueMatch s2 := by
  simp only [nftIssueMatch, hl]
  simp (disch := omega) only [idx_congr s1 s2 hl ht]

theorem nftTransferMatch_congr (s1 s2 : List Byte) (hl : s2.length = s1.length)
    (ht : s1.drop (s1.length - 168) = s2.drop (s2.length - 168)) (h168 : 168 ≤ s1.length) :
    nftTransferMatch s1 ↔ nftTransferMatch s2 := by
  simp only [nftTransferMatch, hl]
  simp (disch := omega) only [idx_congr s1 s2 hl ht]

theorem nftIssueRecord_congr (H : List Byte → List Byte) (s1 s2 : List Byte) (txo : TxoData)
    (hl : s2.length = s1.length)
    (ht : s1.drop (s1.length - 168) = s2.drop (s2.length - 168)) (h168 : 168 ≤ s1.length) :
    eraseCodeHash (nftIssueRecord H s1 txo) = eraseCodeHash (nftIssueRecord H s2 txo) := by
  simp only [eraseCodeHash, nftIssueRecord, hl]
  simp (disch := omega) only [sub_congr s1 s2 hl ht]

theorem nftTransferRecord_congr (H : List Byte → List Byte) (s1 s2 : List Byte) (txo : TxoData)
    (hl : s2.length = s1.length)
    (ht : s1.drop (s1.length - 168) = s2.drop (s2.length - 168)) (h168 : 168 ≤ s1.length) :
    eraseCodeHash (nftTransferRecord H s1 txo) = eraseCodeHash (nftTransferRecord H s2 txo) := by
  simp only [eraseCodeHash, nftTransferRecord, hl]
  simp (disch := omega) only [sub_congr s1 s2 hl ht]

/-- Counterexample to C17 as stated: two 1024-byte scripts that agree on their last 168
bytes (they differ only at offset `len-256`) on which the decoder returns true and
false: with custom data size 200 the Unique validation reads `script[len-256]`. -/
theorem suffix_locality_unique_counterexample :
    (uniqueFar 0x6a).length = 1024 ∧ (uniqueFar 0).length = 1024 ∧
      (uniqueFar 0x6a).drop ((uniqueFar 0x6a).length - 168) =
        (uniqueFar 0).drop ((uniqueFar 0).length - 168) ∧
      (DecodeSensibleTxo lengthHash (uniqueFar 0x6a) txo0).map (fun r => r.1) = some true ∧
      (DecodeSensibleTxo lengthHash (uniqueFar 0) txo0).map (fun r => r.1) = some false := by
  refine ⟨by decide, by decide, by decide, by decide, by decide⟩

/-- C17 (amended): suffix locality. Two scripts of the same length of at least 1024 bytes
that agree on their last 168 bytes and, when the Unique decoder is dispatched (flag
suffix and type byte 2) with a data length `D` below the script length, also agree on
the byte at `len-D` that the Unique validation reads (`D` is computed from the shared
custom data size), give the same boolean for every initial record, and records that
agree on every field other than `code_hash`. -/
theorem suffix_locality (H : List Byte → List Byte) (s1 s2 : List Byte) (txo : TxoData)
    (hl : s1.length = s2.length) (h : 1024 ≤ s1.length)
    (ht : s1.drop (s1.length - 168) = s2.drop (s2.length - 168))
    (hu : endsWithFlag s1 → index s1 ((s1.length : Int) - 12) = some 2 →
      ∀ c : Nat, (slice s1 ((s1.length : Int) - 53) ((s1.length : Int) - 49)).bind Uint32
          = some c →
        uniqueTotal c < (s1.length : Int) →
        index s1 ((s1.length : Int) - uniqueTotal c) =
          index s2 ((s1.length : Int) - uniqueTotal c)) :
    ∃ (ret : Bool) (t1 t2 : TxoData),
      DecodeSensibleTxo H s1 txo = some (ret, t1) ∧
      DecodeSensibleTxo H s2 txo = some (ret, t2) ∧
      eraseCodeHash t1 = eraseCodeHash t2 := by
  have hl' : s2.length = s1.length := hl.symm
  have h2 : 1024 ≤ s2.length := by omega
  have h168 : 168 ≤ s1.length := by omega
  have hflag := hasSensibleFlag_congr s1 s2 hl' ht h168
  have hsel := ftSel_congr s1 s2 hl' ht h168
  have hty : idx s2 ((s2.length : Int) - 12) = idx s1 ((s1.length : Int) - 12) := by
    rw [hl', idx_congr s1 s2 hl' ht _ (by omega) h168]
  have hiss := nftIssueMatch_congr s1 s2 hl' ht h168
  have htra := nftTransferMatch_congr s1 s2 hl' ht h168
  rw [DecodeSensibleTxo_eq H s1 txo h, DecodeSensibleTxo_eq H s2 txo h2, ← hflag, hty]
  by_cases hf : hasSensibleFlag s1 = true
  · rw [if_pos hf, if_pos hf]
    by_cases h1 : idx s1 ((s1.length : Int) - 12) = 1
    · rw [if_pos h1, if_pos h1, decodeFT_eq H s1 txo h, decodeFT_eq H s2 txo h2, ← hsel]
      rcases ftSel_cases s1 with e | e | e | e | e | e <;> rw [e]
      · exact ⟨false, txo, txo, rfl, rfl, rfl⟩
      all_goals
        exact ⟨true, _, _, rfl, rfl,
          ftRecord_congr H s1 s2 txo hl' ht h168 _ _ _ (by norm_num) (by norm_num)⟩
    · rw [if_neg h1, if_neg h1]
      by_cases h2' : idx s1 ((s1.length : Int) - 12) = 2
      · rw [if_pos h2', if_pos h2', decodeUnique_eq H s1 txo h, decodeUnique_eq H s2 txo h2]
        have hb := uniqueDataLen_bounds s1 h
        have hD : uniqueDataLen s2 = uniqueDataLen s1 := by
          unfold uniqueDataLen
          rw [uniqueSize_congr s1 s2 hl' ht h168]
        rw [hD, hl']
        by_cases hge : uniqueDataLen s1 ≥ s1.length
        · rw [if_pos (Or.inl hge), if_pos (Or.inl hge)]
          exact ⟨false, txo, txo, rfl, rfl, rfl⟩
        · have hlt : uniqueDataLen s1 < s1.length := by omega
          have hbyte : idx s1 ((s1.length : Int) - uniqueDataLen s1)
              = idx s2 ((s1.length : Int) - uniqueDataLen s1) := by
            have e := hu ((hasSensibleFlag_iff s1).mp hf)
              ((index_eq_some_iff s1 _ _ (by omega) (by omega)).mpr h2') (uniqueSize s1)
              (uniqueSize_eq s1 h) hlt
            have eD : uniqueTotal (uniqueSize s1) = uniqueDataLen s1 := rfl
            rw [eD, index_eq_some s1 _ (by omega) (by omega),
              index_eq_some s2 _ (by omega) (by omega)] at e
            exact Option.some_inj.mp e
          rw [← hbyte]
          by_cases hr : idx s1 ((s1.length : Int) - uniqueDataLen s1) = OP_RETURN
          · have hn : ¬ (uniqueDataLen s1 ≥ s1.length ∨
                idx s1 ((s1.length : Int) - uniqueDataLen s1) ≠ OP_RETURN) := by
              rintro (a | a)
              · exact hge a
              · exact a hr
            rw [if_neg hn, if_neg hn]
            exact ⟨true, _, _, rfl, rfl, uniqueRecord_congr H s1 s2 txo hl' ht h168⟩
          · rw [if_pos (Or.inr hr), if_pos (Or.inr hr)]
            exact ⟨false, txo, txo, rfl, rfl, rfl⟩
      · rw [if_neg h2', if_neg h2']
        exact ⟨false, txo, txo, rfl, rfl, rfl⟩
  · rw [if_neg hf, if_neg hf]
    by_cases hi : nftIssueMatch s1
    · rw [if_pos hi, if_pos (hiss.mp hi), decodeNFTIssue_eq H s1 txo h,
        decodeNFTIssue_eq H s2 txo h2]
      exact ⟨true, _, _, rfl, rfl, nftIssueRecord_congr H s1 s2 txo hl' ht h168⟩
    · rw [if_neg hi, if_neg (fun a => hi (hiss.mpr a))]
      by_cases htr : nftTransferMatch s1
      · rw [if_pos htr, if_pos (htra.mp htr), decodeNFTTransfer_eq H s1 txo h,
          decodeNFTTransfer_eq H s2 txo h2]
        exact ⟨true, _, _, rfl, rfl, nftTransferRecord_congr H s1 s2 txo hl' ht h168⟩
      · rw [if_neg htr, if_neg (fun a => htr (htra.mpr a))]
        exact ⟨false, txo, txo, rfl, rfl, rfl⟩

/-- Witness of C17 (amended): two Unique scripts that differ in their first byte; both are
accepted and the records differ at most in `code_hash`. -/
theorem suffix_locality_witness :
    (uniqueFar 0x6a).length = uniqueFarAlt.length ∧ 1024 ≤ (uniqueFar 0x6a).length ∧
      (uniqueFar 0x6a).drop ((uniqueFar 0x6a).length - 168) =
        uniqueFarAlt.drop (uniqueFarAlt.length - 168) ∧
      (endsWithFlag (uniqueFar 0x6a) →
        index (uniqueFar 0x6a) (((uniqueFar 0x6a).length : Int) - 12) = some 2 →
        ∀ c : Nat, (slice (uniqueFar 0x6a) (((uniqueFar 0x6a).length : Int) - 53)
            (((uniqueFar 0x6a).length : Int) - 49)).bind Uint32 = some c →
          uniqueTotal c < ((uniqueFar 0x6a).length : Int) →
          index (uniqueFar 0x6a) (((uniqueFar 0x6a).length : Int) - uniqueTotal c) =
            index uniqueFarAlt (((uniqueFar 0x6a).length : Int) - uniqueTotal c)) ∧
      ∃ (ret : Bool) (t1 t2 : TxoData),
        DecodeSensibleTxo lengthHash (uniqueFar 0x6a) txo0 = some (ret, t1) ∧
        DecodeSensibleTxo lengthHash uniqueFarAlt txo0 = some (ret, t2) ∧
        eraseCodeHash t1 = eraseCodeHash t2 :=
  have hu : endsWithFlag (uniqueFar 0x6a) →
      index (uniqueFar 0x6a) (((uniqueFar 0x6a).length : Int) - 12) = some 2 →
      ∀ c : Nat, (slice (uniqueFar 0x6a) (((uniqueFar 0x6a).length : Int) - 53)
          (((uniqueFar 0x6a).length : Int) - 49)).bind Uint32 = some c →
        uniqueTotal c < ((uniqueFar 0x6a).length : Int) →
        index (uniqueFar 0x6a) (((uniqueFar 0x6a).length : Int) - uniqueTotal c) =
          index uniqueFarAlt (((uniqueFar 0x6a).length : Int) - uniqueTotal c) := by
    intro _ _ c hc _
    have e : (slice (uniqueFar 0x6a) (((uniqueFar 0x6a).length : Int) - 53)
        (((uniqueFar 0x6a).length : Int) - 49)).bind Uint32 = some 200 := by decide
    have hc2 : c = 200 := (Option.some_inj.mp (e.symm.trans hc)).symm
    rw [hc2]
    decide
  ⟨by decide, by decide, by decide, hu,
    suffix_locality lengthHash (uniqueFar 0x6a) uniqueFarAlt txo0 (by decide) (by decide)
      (by decide) hu⟩

end SensibleScript
